import Mathlib

/-!
Verification development for the wearipedia repository.

The repository's core is the synthetic biometric generator
`src/wearipedia/devices/biostrap/evo_gen.py` (function `create_syn_data`
and its inner helpers), plus the date-offset slicing in
`src/wearipedia/devices/fitbit/fitbit_sense.py` (`_filter_synthetic`).

Embedding conventions:
* Python's process-global random sources (`random` and `np.random`) are
  modelled as two infinite oracle streams inside an environment `Env`,
  consumed through an explicit position state `St` (one counter per
  stream).  `random.random()` draws `rand k` (a value in `[0,1)` when the
  environment is `Bounded`); `np.random.normal(mu, s)` is `mu + s * nrm k`
  with `nrm` an unconstrained stream, which covers every possible sequence
  of normal deviates.  `randint`/`uniform`/`choice` are derived from the
  uniform stream exactly as they are specified to behave (an integer in
  `[a, b]`, a real in `[a, b)`, an element of the sequence).
* Python floats are modelled as rational numbers; the transcendental
  functions `math.sin`, `math.cos` and the constant `math.pi` are oracle
  fields of `Env` (every concrete float behaviour is an instance of some
  environment).  Decimal literals such as `0.5` are the corresponding
  rationals.
* Python dicts are insertion-ordered association lists; `d[k] = v` is
  `upsert`, which overwrites in place when the key is present and appends
  otherwise, exactly like a Python dict.
* `datetime.strptime(s, "%Y-%m-%d")` is `strptime`, a checking parser; a
  Python `ValueError` is the `Except.error` branch of `create_syn_data`.
* The `while` loops over days / 10-second ticks are well-founded
  recursions `whileDays` / `whileTicks` with the same guards and steps.
-/

namespace Wearipedia

/-- Position state of the two process-global random streams:
`np` counts draws from `np.random`, `py` counts draws from `random`. -/
structure St where
  np : ℕ
  py : ℕ
deriving DecidableEq, Repr

/-- Oracle environment: the two random streams and the float-level
transcendental functions used by `evo_gen.py`. -/
structure Env where
  rand : ℕ → ℚ
  nrm : ℕ → ℚ
  sinq : ℚ → ℚ
  cosq : ℚ → ℚ
  piq : ℚ

/-- The Python `random` module documents `random()` as returning a float
in `[0, 1)`.  Environments satisfying that contract. -/
def Bounded (E : Env) : Prop :=
  ∀ n, 0 ≤ E.rand n ∧ E.rand n < 1

/-- `np.random.normal(mu, sigma)`: one draw from the numpy stream. -/
def npNormal (E : Env) (mu sigma : ℚ) (s : St) : ℚ × St :=
  (mu + sigma * E.nrm s.np, ⟨s.np + 1, s.py⟩)

/-- `random.randint(a, b)`: an integer in `[a, b]` (both ends included). -/
def randint (E : Env) (a b : ℤ) (s : St) : ℚ × St :=
  (((a + ⌊E.rand s.py * ((b : ℚ) - (a : ℚ) + 1)⌋ : ℤ) : ℚ), ⟨s.np, s.py + 1⟩)

/-- `random.uniform(a, b)`: a float in `[a, b]`. -/
def uniform (E : Env) (a b : ℚ) (s : St) : ℚ × St :=
  (a + (b - a) * E.rand s.py, ⟨s.np, s.py + 1⟩)

/-- `random.choice(seq)`: the element of `seq` at a random index. -/
def choice {α : Type} (E : Env) (l : List α) (d0 : α) (s : St) : α × St :=
  (l.getD (⌊E.rand s.py * (l.length : ℚ)⌋).toNat d0, ⟨s.np, s.py + 1⟩)

/-- Python `int(x)` on a float: truncation toward zero. -/
def pyInt (x : ℚ) : ℤ :=
  if x < 0 then ⌈x⌉ else ⌊x⌋

/-- Decimal-digit test on a character. -/
def isDigitChar (c : Char) : Bool := decide (48 ≤ c.toNat ∧ c.toNat ≤ 57)

/-- Python `int(s)` on a digit string. -/
def pyStrToNat (s : String) : ℕ :=
  s.data.foldl (fun a c => 10 * a + (c.toNat - 48)) 0

/-- `list.split(c)` on character lists (Python `str.split` with an explicit
one-character separator: splits at every occurrence, keeps empty pieces). -/
def splitChars (c : Char) : List Char → List (List Char)
  | [] => [[]]
  | a :: rest =>
    if a = c then [] :: splitChars c rest
    else
      match splitChars c rest with
      | [] => [[a]]
      | g :: gs => (a :: g) :: gs

/-- Python `s.split(sep)` for a one-character separator. -/
def pySplit (s : String) (c : Char) : List String :=
  (splitChars c s.data).map String.mk

/-- Python `s.endswith(t)`. -/
def pyEndswith (s t : String) : Bool :=
  t.data.isSuffixOf s.data

/-- Python `s.startswith(t)`. -/
def pyStartswith (s t : String) : Bool :=
  t.data.isPrefixOf s.data

/-- Python dict assignment `d[k] = v` on an insertion-ordered association
list: overwrite in place if the key is present, else append. -/
def upsert {α β : Type} [DecidableEq α] (l : List (α × β)) (k : α) (v : β) :
    List (α × β) :=
  if l.any (fun p => p.1 = k) then
    l.map (fun p => if p.1 = k then (p.1, v) else p)
  else l ++ [(k, v)]

/-- `daily_bpm_averages.setdefault(date_str, []).append(v)`. -/
def setdefaultAppend (l : List (String × List ℚ)) (k : String) (v : ℚ) :
    List (String × List ℚ) :=
  if l.any (fun p => p.1 = k) then
    l.map (fun p => if p.1 = k then (p.1, p.2 ++ [v]) else p)
  else l ++ [(k, [v])]

/-- A calendar date as parsed by `datetime.strptime(_, "%Y-%m-%d")`. -/
structure Date where
  y : ℕ
  m : ℕ
  d : ℕ
deriving DecidableEq, Repr

/-- Gregorian leap-year test. -/
def isLeap (y : ℕ) : Bool :=
  (y % 4 = 0 && y % 100 ≠ 0) || y % 400 = 0

/-- Number of days in a month. -/
def daysInMonth (y m : ℕ) : ℕ :=
  if m = 2 then (if isLeap y then 29 else 28)
  else if m = 4 ∨ m = 6 ∨ m = 9 ∨ m = 11 then 30
  else 31

/-- `datetime` comparison of two midnight dates (lexicographic). -/
def dateLe (a b : Date) : Bool :=
  decide (a.y < b.y ∨ (a.y = b.y ∧ (a.m < b.m ∨ (a.m = b.m ∧ a.d ≤ b.d))))

/-- `curr_date_obj + timedelta(days=1)` at the civil-calendar level. -/
def nextDay (dt : Date) : Date :=
  if dt.d < daysInMonth dt.y dt.m then ⟨dt.y, dt.m, dt.d + 1⟩
  else if dt.m < 12 then ⟨dt.y, dt.m + 1, 1⟩
  else ⟨dt.y + 1, 1, 1⟩

/-- Serial day number of a civil date (Hinnant's `days_from_civil`);
used to model `datetime` subtraction, whose result on midnight dates is a
whole number of days. -/
def daysFromCivil (dt : Date) : ℤ :=
  let y : ℤ := if dt.m ≤ 2 then (dt.y : ℤ) - 1 else (dt.y : ℤ)
  let era : ℤ := Int.fdiv y 400
  let yoe : ℤ := y - era * 400
  let mp : ℤ := Int.emod ((dt.m : ℤ) + 9) 12
  let doy : ℤ := Int.fdiv (153 * mp + 2) 5 + (dt.d : ℤ) - 1
  let doe : ℤ := yoe * 365 + Int.fdiv yoe 4 - Int.fdiv yoe 100 + doy
  era * 146097 + doe - 719468

/-- Civil date of a serial day number (Hinnant's `civil_from_days`);
used to model `strftime` on a datetime built by timedelta arithmetic. -/
def civilFromDays (z0 : ℤ) : Date :=
  let z : ℤ := z0 + 719468
  let era : ℤ := Int.fdiv z 146097
  let doe : ℤ := z - era * 146097
  let yoe : ℤ :=
    Int.fdiv (doe - Int.fdiv doe 1460 + Int.fdiv doe 36524 - Int.fdiv doe 146096) 365
  let y : ℤ := yoe + era * 400
  let doy : ℤ := doe - (365 * yoe + Int.fdiv yoe 4 - Int.fdiv yoe 100)
  let mp : ℤ := Int.fdiv (5 * doy + 2) 153
  let d : ℤ := doy - Int.fdiv (153 * mp + 2) 5 + 1
  let m : ℤ := if mp < 10 then mp + 3 else mp - 9
  ⟨(if m ≤ 2 then y + 1 else y).toNat, m.toNat, d.toNat⟩

/-- Two-digit zero-padded field of `strftime`. -/
def pad2 (n : ℕ) : String :=
  ⟨[Nat.digitChar (n / 10 % 10), Nat.digitChar (n % 10)]⟩

/-- Four-digit zero-padded `%Y` field of `strftime`. -/
def pad4 (n : ℕ) : String :=
  ⟨[Nat.digitChar (n / 1000 % 10), Nat.digitChar (n / 100 % 10),
    Nat.digitChar (n / 10 % 10), Nat.digitChar (n % 10)]⟩

/-- `strftime("%Y-%m-%d")`. -/
def fmtDate (dt : Date) : String :=
  pad4 dt.y ++ "-" ++ pad2 dt.m ++ "-" ++ pad2 dt.d

/-- `strftime("%H:%M:%S")` of a second-of-day. -/
def fmtTime (sec : ℕ) : String :=
  pad2 (sec / 3600) ++ ":" ++ pad2 (sec % 3600 / 60) ++ ":" ++ pad2 (sec % 60)

/-- `curr_time.strftime("%Y-%m-%d %H:%M:%S")`. -/
def fmtKey (dt : Date) (sec : ℕ) : String :=
  fmtDate dt ++ " " ++ fmtTime sec

/-- `datetime.strptime(s, "%Y-%m-%d")`: `%Y` is exactly four digits, `%m`
and `%d` are one or two digits, and the constructor validates the ranges
(month `1..12`, day `1..days_in_month`, year at least 1). -/
def strptime (s : String) : Option Date :=
  match pySplit s '-' with
  | [ys, ms, ds] =>
    if ys.length = 4 ∧ ys.data.all isDigitChar ∧
        1 ≤ ms.length ∧ ms.length ≤ 2 ∧ ms.data.all isDigitChar ∧
        1 ≤ ds.length ∧ ds.length ≤ 2 ∧ ds.data.all isDigitChar then
      if 1 ≤ pyStrToNat ys ∧ 1 ≤ pyStrToNat ms ∧ pyStrToNat ms ≤ 12 ∧
          1 ≤ pyStrToNat ds ∧
          pyStrToNat ds ≤ daysInMonth (pyStrToNat ys) (pyStrToNat ms) then
        some ⟨pyStrToNat ys, pyStrToNat ms, pyStrToNat ds⟩
      else none
    else none
  | _ => none

/-- Python list slicing `l[a:b]` (step 1), with negative-index and
clamping semantics. -/
def pySlice {α : Type} (l : List α) (a b : ℤ) : List α :=
  let n := l.length
  let a2 : ℕ := if a < 0 then ((n : ℤ) + a).toNat else min a.toNat n
  let b2 : ℕ := if b < 0 then ((n : ℤ) + b).toNat else min b.toNat n
  (l.take b2).drop a2

/-- Key of the high-frequency dicts: `(timestamp string, timezone offset)`. -/
abbrev TKey : Type := String × ℤ

/-- `TZ_OFFSET = -420`. -/
def TZ_OFFSET : ℤ := -420

/-- Mutable state of the `synthetic_biometrics` loops: the four dicts,
the trailing `last_minute_bpm` window, the running `time_index`, and the
random-stream positions. -/
structure BioState where
  bpm : List (TKey × ℚ)
  brpm : List (TKey × ℚ)
  hrv : List (TKey × ℚ)
  spo2 : List (TKey × ℚ)
  last_minute_bpm : List ℚ
  time_index : ℕ
  st : St

/-- One iteration of the inner 10-second loop of `synthetic_biometrics`
(lines 71-109 of `evo_gen.py`), at second-of-day `sec` of date `d`. -/
def tick (E : Env) (d : Date) (sec : ℕ) (s : BioState) : BioState :=
  let key : TKey := (fmtKey d sec, TZ_OFFSET)
  let arg : ℚ := 2 * E.piq * (s.time_index : ℚ) / 86400
  let p1 := npNormal E 0 (1/2) s.st
  let bpm_val : ℚ := ((pyInt (60 + 5 * E.sinq arg) : ℤ) : ℚ) + p1.1
  let lm0 := s.last_minute_bpm ++ [bpm_val]
  let lm := if 6 < lm0.length then lm0.tail else lm0
  let avg_last_minute_bpm : ℚ := lm.sum / (lm.length : ℚ)
  let p2 := npNormal E 0 1 p1.2
  let brpm_raw : ℚ := 12 + (avg_last_minute_bpm - 60) / 10 + p2.1
  let brpm_val : ℚ := max 12 (min 20 brpm_raw)
  let p3 := npNormal E 0 1 p2.2
  let hrv_val : ℚ := ((pyInt (40 + 5 * E.cosq arg) : ℤ) : ℚ) + p3.1
  let p4 := npNormal E 0 (1/20) p3.2
  let spo2_raw : ℚ := ((pyInt (98 + (1/10) * E.sinq arg) : ℤ) : ℚ) + p4.1
  let spo2_val : ℚ := max 95 (min 100 spo2_raw)
  { bpm := upsert s.bpm key bpm_val
    brpm := upsert s.brpm key brpm_val
    hrv := upsert s.hrv key hrv_val
    spo2 := upsert s.spo2 key spo2_val
    last_minute_bpm := lm
    time_index := s.time_index + 10
    st := p4.2 }

/-- `while curr_time < curr_date_obj + timedelta(days=1)` stepping by 10
seconds, generic in the loop body state. -/
def whileTicks {σ : Type} (step : ℕ → σ → σ) (sec : ℕ) (s : σ) : σ :=
  if sec < 86400 then whileTicks step (sec + 10) (step sec s) else s
termination_by 86400 - sec
decreasing_by omega

/-- Rank used only for the termination of the day loop. -/
def dayMeasure (endd cur : Date) : ℕ :=
  (endd.y + 1 - cur.y) * 500 + (13 - cur.m) * 35 + (32 - cur.d)

/-- Strictly increasing rank of well-formed dates (used to show the day
loop never revisits a date). -/
def rankD (dt : Date) : ℕ :=
  dt.y * 372 + dt.m * 31 + dt.d

/-- `while curr_date_obj <= end_date_obj` stepping by one day, generic in
the loop body state. -/
def whileDays {σ : Type} (step : Date → σ → σ) (cur endd : Date) (s : σ) : σ :=
  if h : dateLe cur endd = true then whileDays step (nextDay cur) endd (step cur s)
  else s
termination_by dayMeasure endd cur
decreasing_by
  have hy : cur.y ≤ endd.y := by
    simp only [dateLe, decide_eq_true_eq] at h
    rcases h with h1 | ⟨h1, _⟩ <;> omega
  have hdm : daysInMonth cur.y cur.m ≤ 31 := by
    unfold daysInMonth
    split
    · split <;> omega
    · split <;> omega
  unfold nextDay dayMeasure
  split
  · simp only
    omega
  · split
    · simp only
      omega
    · simp only
      omega

/-- The list of dates visited by the day loop, start through end inclusive. -/
def dayListFrom (cur endd : Date) : List Date :=
  if h : dateLe cur endd = true then cur :: dayListFrom (nextDay cur) endd
  else []
termination_by dayMeasure endd cur
decreasing_by
  have hy : cur.y ≤ endd.y := by
    simp only [dateLe, decide_eq_true_eq] at h
    rcases h with h1 | ⟨h1, _⟩ <;> omega
  have hdm : daysInMonth cur.y cur.m ≤ 31 := by
    unfold daysInMonth
    split
    · split <;> omega
    · split <;> omega
  unfold nextDay dayMeasure
  split
  · simp only
    omega
  · split
    · simp only
      omega
    · simp only
      omega

/-- Result record of `synthetic_biometrics` (the returned 4-tuple of dicts). -/
structure Biometrics where
  bpm : List (TKey × ℚ)
  brpm : List (TKey × ℚ)
  hrv : List (TKey × ℚ)
  spo2 : List (TKey × ℚ)
deriving DecidableEq

/-- One day of the biometrics generation: the full inner 10-second loop. -/
def bioDay (E : Env) (d : Date) (s : BioState) : BioState :=
  whileTicks (tick E d) 0 s

/-- `synthetic_biometrics(start_date_obj, end_date_obj)` (lines 56-113). -/
def synthetic_biometrics (E : Env) (start_d end_d : Date) (st : St) :
    Biometrics × St :=
  let s := whileDays (bioDay E) start_d end_d ⟨[], [], [], [], [], 0, st⟩
  (⟨s.bpm, s.brpm, s.hrv, s.spo2⟩, s.st)

/-- State of the `synthetic_steps_distance_per_minute` loop. -/
structure StepsState where
  steps : List (String × ℚ)
  distance : List (String × ℚ)
  st : St

/-- Body of the `for key, bpm_value in bpm_dict.items()` loop
(lines 120-143). -/
def stepsEntry (E : Env) (s : StepsState) (kv : TKey × ℚ) : StepsState :=
  let dt := kv.1.1
  let bpm_value := kv.2
  let curr_hour : ℕ :=
    pyStrToNat (((pySplit ((pySplit dt ' ').getD 1 "") ':').getD 0 ""))
  if pyEndswith dt "00" then
    let p1 :=
      if 23 ≤ curr_hour ∨ curr_hour < 6 then
        choice E [(0 : ℚ), 0, 0, 0, 1, 2] 0 s.st
      else if bpm_value < 60 then randint E 0 20 s.st
      else if bpm_value < 80 then randint E 20 40 s.st
      else randint E 40 120 s.st
    let p2 := uniform E (7/10) (8/10) p1.2
    let distance : ℚ := p1.1 * p2.1
    let date_str := (pySplit dt ' ').getD 0 ""
    let time_str := (pySplit dt ' ').getD 1 ""
    let k2 := date_str ++ " " ++ time_str
    { steps := upsert s.steps k2 p1.1
      distance := upsert s.distance k2 distance
      st := p2.2 }
  else s

/-- `synthetic_steps_distance_per_minute(bpm_dict)` (lines 115-145). -/
def synthetic_steps_distance_per_minute (E : Env) (bpm_dict : List (TKey × ℚ))
    (st : St) : (List (String × ℚ) × List (String × ℚ)) × St :=
  let s := bpm_dict.foldl (stepsEntry E) ⟨[], [], st⟩
  ((s.steps, s.distance), s.st)

/-- The date part of a dict key: `dt.split(" ")[0]`. -/
def dateOfKey (k : TKey) : String :=
  (pySplit k.1 ' ').getD 0 ""

/-- `daily_bpm_averages` before averaging: grouping of the bpm values by
date string via `setdefault(...).append(...)` (lines 157-159). -/
def buildGroups (bpm_dict : List (TKey × ℚ)) : List (String × List ℚ) :=
  bpm_dict.foldl (fun g kv => setdefaultAppend g (dateOfKey kv.1) kv.2) []

/-- The in-place averaging pass (lines 162-164). -/
def groupsAvg (bpm_dict : List (TKey × ℚ)) : List (String × ℚ) :=
  (buildGroups bpm_dict).map (fun p => (p.1, p.2.sum / (p.2.length : ℚ)))

/-- State of the per-date calories loop. -/
structure CalsState where
  rest : List (String × ℚ)
  work : List (String × ℚ)
  active : List (String × ℚ)
  step : List (String × ℚ)
  total : List (String × ℚ)
  st : St

/-- Body of the `for date_str, avg_bpm in daily_bpm_averages.items()`
loop (lines 167-188). -/
def calsEntry (E : Env) (steps_dict : List (String × ℚ)) (s : CalsState)
    (p : String × ℚ) : CalsState :=
  let date_str := p.1
  let avg_bpm := p.2
  let q1 :=
    if avg_bpm < 60 then randint E 50 100 s.st
    else if avg_bpm < 80 then randint E 100 200 s.st
    else randint E 200 300 s.st
  let active_cals := q1.1
  let steps_val : ℚ :=
    ((steps_dict.filter (fun q => pyStartswith q.1 date_str)).map (·.2)).sum
  let q2 := randint E 1000 1300 q1.2
  let q3 := randint E 300 600 q2.2
  let step_cals : ℚ := steps_val * (5/100)
  let total_cals : ℚ := q2.1 + q3.1 + step_cals + active_cals
  { rest := upsert s.rest date_str q2.1
    work := upsert s.work date_str q3.1
    active := upsert s.active date_str active_cals
    step := upsert s.step date_str step_cals
    total := upsert s.total date_str total_cals
    st := q3.2 }

/-- Result record of `synthetic_daily_calories` (the returned 5-tuple). -/
structure Calories where
  rest_cals : List (String × ℚ)
  work_cals : List (String × ℚ)
  active_cals : List (String × ℚ)
  step_cals : List (String × ℚ)
  total_cals : List (String × ℚ)
deriving DecidableEq

/-- `synthetic_daily_calories(bpm_dict, steps_dict)` (lines 147-196). -/
def synthetic_daily_calories (E : Env) (bpm_dict : List (TKey × ℚ))
    (steps_dict : List (String × ℚ)) (st : St) : Calories × St :=
  let s := (groupsAvg bpm_dict).foldl (calsEntry E steps_dict)
    ⟨[], [], [], [], [], st⟩
  (⟨s.rest, s.work, s.active, s.step, s.total⟩, s.st)

/-- `(start_date_obj + (end_date_obj - start_date_obj) / 2)` followed by
`strftime("%Y-%m-%d")`: timedelta halving floors to the midpoint day. -/
def midDateStr (d1 d2 : Date) : String :=
  fmtDate (civilFromDays (daysFromCivil d1 +
    Int.fdiv (daysFromCivil d2 - daysFromCivil d1) 2))

/-- The activity record returned by `synthetic_activity` (lines 198-214);
`duration` is `timedelta(minutes=...)` stored as its minute count. -/
structure ActivityRecord where
  activity_date : String
  kind : String
  duration_minutes : ℚ
  distance : ℚ
  calories_burned : ℚ
  avg_bpm : ℚ
  peak_bpm : ℚ
  steps_taken : ℚ
  intensity : String
deriving DecidableEq

/-- `synthetic_activity()` (lines 198-214). -/
def synthetic_activity (E : Env) (d1 d2 : Date) (st : St) :
    ActivityRecord × St :=
  let activity_date := midDateStr d1 d2
  let q1 := randint E 20 60 st
  let q2 := uniform E 3 10 q1.2
  let q3 := randint E 200 500 q2.2
  let q4 := randint E 80 150 q3.2
  let q5 := randint E 150 180 q4.2
  let q6 := randint E 3000 10000 q5.2
  let q7 := choice E ["light", "moderate", "high"] "" q6.2
  (⟨activity_date, "Running", q1.1, q2.1, q3.1, q4.1, q5.1, q6.1, q7.1⟩, q7.2)

/-- Hour extraction `int(k[0].split(" ")[1].split(":")[0])` used by
`synthetic_sleep_session`. -/
def hourOfKey (k : TKey) : ℕ :=
  pyStrToNat ((pySplit ((pySplit k.1 ' ').getD 1 "") ':').getD 0 "")

/-- `synthetic_sleep_session(bpm_dict)` (lines 216-227): nocturnal keys
whose bpm exceeds 65.  (The `print` on line 217 is output-only and has no
effect on the data.) -/
def synthetic_sleep_session (bpm_dict : List (TKey × ℚ)) : List (TKey × ℚ) :=
  (bpm_dict.filter (fun kv => 23 ≤ hourOfKey kv.1 ∨ hourOfKey kv.1 < 6)).filter
    (fun kv => 65 < kv.2)

/-- The sleep-detail record (lines 239-246). -/
structure SleepDetail where
  sleep_date : String
  light_sleep : ℚ
  deep_sleep : ℚ
  rem_sleep : ℚ
  awake_time : ℚ
  times_awoken : ℚ
deriving DecidableEq

/-- `synthetic_sleep_detail()` (lines 229-246): fixed 8-hour total, REM
constructed as the remainder. -/
def synthetic_sleep_detail (E : Env) (d1 d2 : Date) (st : St) :
    SleepDetail × St :=
  let sleep_date := midDateStr d1 d2
  let total_sleep_duration : ℚ := 8
  let u1 := uniform E (2/5) (3/5) st
  let light_sleep := u1.1 * total_sleep_duration
  let u2 := uniform E (1/5) (3/10) u1.2
  let deep_sleep := u2.1 * total_sleep_duration
  let rem_sleep := total_sleep_duration - (light_sleep + deep_sleep)
  let u3 := uniform E (1/10) (3/10) u2.2
  let u4 := randint E 1 5 u3.2
  (⟨sleep_date, light_sleep, deep_sleep, rem_sleep, u3.1, u4.1⟩, u4.2)

/-- The full 14-component bundle returned by `create_syn_data`. -/
structure Bundle where
  activities : ActivityRecord
  bpm : List (TKey × ℚ)
  brpm : List (TKey × ℚ)
  hrv : List (TKey × ℚ)
  spo2 : List (TKey × ℚ)
  rest_cals : List (String × ℚ)
  work_cals : List (String × ℚ)
  active_cals : List (String × ℚ)
  step_cals : List (String × ℚ)
  total_cals : List (String × ℚ)
  sleep_session : List (TKey × ℚ)
  sleep_detail : SleepDetail
  steps : List (String × ℚ)
  distance : List (String × ℚ)
deriving DecidableEq

/-- `create_syn_data(start_date, end_date)` (lines 8-281).  A `ValueError`
raised by `strptime` is the `Except.error` branch; the second component of
the `.ok` payload is the position of the global random streams after the
call. -/
def create_syn_data (E : Env) (start_date end_date : String) (st : St) :
    Except String (Bundle × St) :=
  match strptime start_date with
  | none => .error "ValueError"
  | some start_date_obj =>
    match strptime end_date with
    | none => .error "ValueError"
    | some end_date_obj =>
      let b1 := synthetic_biometrics E start_date_obj end_date_obj st
      let bio := b1.1
      let b2 := synthetic_steps_distance_per_minute E bio.bpm b1.2
      let steps := b2.1.1
      let distance := b2.1.2
      let b3 := synthetic_daily_calories E bio.bpm steps b2.2
      let cals := b3.1
      let b4 := synthetic_activity E start_date_obj end_date_obj b3.2
      let sleep_session := synthetic_sleep_session bio.bpm
      let b5 := synthetic_sleep_detail E start_date_obj end_date_obj b4.2
      .ok (⟨b4.1, bio.bpm, bio.brpm, bio.hrv, bio.spo2,
            cals.rest_cals, cals.work_cals, cals.active_cals,
            cals.step_cals, cals.total_cals,
            sleep_session, b5.1, steps, distance⟩, b5.2)

/-- `Fitbit_sense._filter_synthetic` (fitbit_sense.py lines 77-144),
modelled for payloads shaped as a list of association lists from data-type
keys to per-day lists.  A `strptime` failure is `none`; falling off the
end of the `if` chain (unknown data type) is also `none`. -/
def filter_synthetic {α : Type} (data : List (List (String × List α)))
    (data_type : String)
    (synthetic_start_date params_start_date synthetic_end_date
      params_end_date : String) :
    Option (List (List (String × List α))) :=
  match strptime synthetic_start_date, strptime params_start_date,
      strptime synthetic_end_date, strptime params_end_date with
  | some date1, some date2, some date3, some date4 =>
    let num_days_start : ℤ := daysFromCivil date2 - daysFromCivil date1
    let num_days_end : ℤ := daysFromCivil date3 - daysFromCivil date4
    if data_type = "sleep" then
      some [[("sleep",
        pySlice (((data.headD []).lookup "sleep").getD [])
          num_days_start (-num_days_end + 1))]]
    else if data_type = "steps" then
      some [[("activities-steps",
        pySlice (((data.headD []).lookup "activities-steps").getD [])
          num_days_start (-num_days_end + 1))]]
    -- The second `if data_type == "sleep"` branch of the source
    -- (lines 102-104) is unreachable dead code and is omitted.
    else if data_type = "minutesVeryActive" then
      some [[("activities-minutesVeryActive",
        pySlice (((data.headD []).lookup "activities-minutesVeryActive").getD [])
          num_days_start (-num_days_end + 1))]]
    else if data_type = "minutesLightlyActive" then
      some [[("activities-minutesLightlyActive",
        pySlice (((data.headD []).lookup "activities-minutesLightlyActive").getD [])
          num_days_start (-num_days_end + 1))]]
    else if data_type = "minutesFairlyActive" then
      some [[("activities-minutesFairlyActive",
        pySlice (((data.headD []).lookup "activities-minutesFairlyActive").getD [])
          num_days_start (-num_days_end + 1))]]
    else if data_type = "distance" then
      some [[("activities-distance",
        pySlice (((data.headD []).lookup "activities-distance").getD [])
          num_days_start (-num_days_end + 1))]]
    else if data_type = "minutesSedentary" then
      some [[("activities-minutesSedentary",
        pySlice (((data.headD []).lookup "activities-minutesSedentary").getD [])
          num_days_start (-num_days_end + 1))]]
    else if data_type = "hrv" then
      some [[("hrv",
        pySlice (((data.headD []).lookup "hrv").getD [])
          num_days_start (-num_days_end + 1))]]
    else if data_type = "distance_day" then some data
    else if data_type = "heart_rate_day" then some data
    else none
  | _, _, _, _ => none

/-! ### Helper definitions used by the statements and proofs -/

/-- Inverse of `Nat.digitChar` on decimal digits. -/
def charToDigit (c : Char) : ℕ := c.toNat - 48

/-- Well-formedness of a parsed date (what `datetime.strptime` guarantees,
minus the four-digit year bound, which is tracked separately). -/
def WFDate (dt : Date) : Prop :=
  1 ≤ dt.y ∧ 1 ≤ dt.m ∧ dt.m ≤ 12 ∧ 1 ≤ dt.d ∧ dt.d ≤ daysInMonth dt.y dt.m

/-- The 8640 second-of-day values visited by the inner 10-second loop. -/
def tickSecs : List ℕ := List.range' 0 8640 10

/-- The keys the biometrics dicts are expected to hold: every 10-second
tick of every day of the range, in generation order. -/
def bioKeys (d1 d2 : Date) : List TKey :=
  (dayListFrom d1 d2).flatMap (fun d => tickSecs.map (fun t => (fmtKey d t, TZ_OFFSET)))

/-- First-occurrence deduplication (the key order that
`setdefault`-grouping produces). -/
def collectDates (acc : List String) (l : List String) : List String :=
  l.foldl (fun a k => if k ∈ a then a else a ++ [k]) acc

/-- Checker for claim C2: every `total_cals` entry equals the sum of the
four component dicts at the same date key, and all components are
non-negative. -/
def calsOK (b : Bundle) : Bool :=
  b.total_cals.all fun p =>
    match b.rest_cals.lookup p.1, b.work_cals.lookup p.1,
        b.step_cals.lookup p.1, b.active_cals.lookup p.1 with
    | some r, some w, some s, some a =>
      decide (p.2 = r + w + s + a ∧ 0 ≤ r ∧ 0 ≤ w ∧ 0 ≤ s ∧ 0 ≤ a)
    | _, _, _, _ => false

/-- Checker for claim C3: breathing rate within `[12, 20]` and blood
oxygen within `[95, 100]` for every stored entry. -/
def bioRangesOK (r : Biometrics) : Bool :=
  (r.brpm.all fun kv => decide (12 ≤ kv.2 ∧ kv.2 ≤ 20)) &&
  (r.spo2.all fun kv => decide (95 ≤ kv.2 ∧ kv.2 ≤ 100))

/-- Checker for claim C8, one steps entry: the concurrent bpm and
distance entries exist; the step count obeys the nocturnal/bpm-tier
ranges; and the distance lies in `[0.7*steps, 0.8*steps]` — for a
non-negative step count this says exactly that it equals
`steps * f` for some factor `f ∈ [0.7, 0.8]`. -/
def stepsEntryOK (bpmD : List (TKey × ℚ)) (distD : List (String × ℚ))
    (p : String × ℚ) : Bool :=
  match bpmD.lookup (p.1, TZ_OFFSET), distD.lookup p.1 with
  | some b, some dist =>
    (if 23 ≤ hourOfKey (p.1, TZ_OFFSET) ∨ hourOfKey (p.1, TZ_OFFSET) < 6 then
      decide (p.2 = 0 ∨ p.2 = 1 ∨ p.2 = 2)
     else if b < 60 then decide (0 ≤ p.2 ∧ p.2 ≤ 20)
     else if b < 80 then decide (20 ≤ p.2 ∧ p.2 ≤ 40)
     else decide (40 ≤ p.2 ∧ p.2 ≤ 120)) &&
    decide ((7/10) * p.2 ≤ dist ∧ dist ≤ (8/10) * p.2)
  | _, _ => false

/-- Checker for claim C8 over a whole bundle. -/
def stepsOK (b : Bundle) : Bool :=
  b.steps.all (stepsEntryOK b.bpm b.distance)

/-- The step-count range dictated by the branch structure of
`synthetic_steps_distance_per_minute` for a minute entry with key `k` and
concurrent bpm value `b`. -/
def stepsBranchOK (k : String) (b v : ℚ) : Prop :=
  if 23 ≤ hourOfKey (k, TZ_OFFSET) ∨ hourOfKey (k, TZ_OFFSET) < 6 then
    v = 0 ∨ v = 1 ∨ v = 2
  else if b < 60 then 0 ≤ v ∧ v ≤ 20
  else if b < 80 then 20 ≤ v ∧ v ≤ 40
  else 40 ≤ v ∧ v ≤ 120

/-- Relation between one steps entry and the distance entry generated at
the same minute, relative to the bpm dict `bl0` they were derived from. -/
def stepsPairOK (bl0 : List (TKey × ℚ)) (ps pd : String × ℚ) : Prop :=
  pd.1 = ps.1 ∧ ∃ b, ((ps.1, TZ_OFFSET), b) ∈ bl0 ∧
    stepsBranchOK ps.1 b ps.2 ∧ (7/10) * ps.2 ≤ pd.2 ∧ pd.2 ≤ (8/10) * ps.2

/-- The defining relation of `total_cals`: at every date key it is exactly
the sum of the four component dicts. -/
def calsLookupOK (s : CalsState) : Prop :=
  ∀ k, s.total.lookup k =
    match s.rest.lookup k, s.work.lookup k, s.step.lookup k,
        s.active.lookup k with
    | some r, some w, some sc, some a => some (r + w + sc + a)
    | _, _, _, _ => none

/-- A concrete environment: the uniform stream constantly `1/2`, normal
deviates and transcendentals constantly `0`. -/
def E0 : Env := ⟨fun _ => 1/2, fun _ => 0, fun _ => 0, fun _ => 0, 0⟩

/-- A concrete environment for the C1 counterexample: uniform draw number
2893 (the `times_awoken` draw of the first back-to-back invocation over a
one-day range) is `0`, every other draw is `1/2`. -/
def E1 : Env :=
  ⟨fun k => if k = 2893 then 0 else 1/2, fun _ => 0, fun _ => 0, fun _ => 0, 0⟩

/-! ### Digit, padding and format-string lemmas -/

theorem charToDigit_digitChar {n : ℕ} (h : n < 10) :
    charToDigit (Nat.digitChar n) = n := by
  interval_cases n <;> rfl

theorem digitChar_isDigit {n : ℕ} (h : n < 10) :
    (Nat.digitChar n).isDigit = true := by
  interval_cases n <;> rfl

theorem digitChar_ne_space {n : ℕ} (h : n < 10) : Nat.digitChar n ≠ ' ' := by
  interval_cases n <;> decide

theorem digitChar_ne_colon {n : ℕ} (h : n < 10) : Nat.digitChar n ≠ ':' := by
  interval_cases n <;> decide

theorem digitChar_ne_dash {n : ℕ} (h : n < 10) : Nat.digitChar n ≠ '-' := by
  interval_cases n <;> decide

theorem pad2_data (n : ℕ) :
    (pad2 n).data = [Nat.digitChar (n / 10 % 10), Nat.digitChar (n % 10)] := rfl

theorem pad4_data (n : ℕ) :
    (pad4 n).data = [Nat.digitChar (n / 1000 % 10), Nat.digitChar (n / 100 % 10),
      Nat.digitChar (n / 10 % 10), Nat.digitChar (n % 10)] := rfl

theorem fmtDate_data (dt : Date) :
    (fmtDate dt).data =
      [Nat.digitChar (dt.y / 1000 % 10), Nat.digitChar (dt.y / 100 % 10),
       Nat.digitChar (dt.y / 10 % 10), Nat.digitChar (dt.y % 10), '-',
       Nat.digitChar (dt.m / 10 % 10), Nat.digitChar (dt.m % 10), '-',
       Nat.digitChar (dt.d / 10 % 10), Nat.digitChar (dt.d % 10)] := by
  simp [fmtDate, pad4, pad2, String.data_append]

theorem fmtTime_data (sec : ℕ) :
    (fmtTime sec).data =
      [Nat.digitChar (sec / 3600 / 10 % 10), Nat.digitChar (sec / 3600 % 10), ':',
       Nat.digitChar (sec % 3600 / 60 / 10 % 10), Nat.digitChar (sec % 3600 / 60 % 10), ':',
       Nat.digitChar (sec % 60 / 10 % 10), Nat.digitChar (sec % 60 % 10)] := by
  simp [fmtTime, pad2, String.data_append]

theorem fmtKey_data (dt : Date) (sec : ℕ) :
    (fmtKey dt sec).data = (fmtDate dt).data ++ ' ' :: (fmtTime sec).data := by
  simp [fmtKey, String.data_append]

theorem digitChar_injOn {a b : ℕ} (ha : a < 10) (hb : b < 10)
    (h : Nat.digitChar a = Nat.digitChar b) : a = b := by
  have := charToDigit_digitChar ha
  have := charToDigit_digitChar hb
  rw [h] at *
  omega

theorem fmtDate_inj {a b : Date} (ha : a.y ≤ 9999 ∧ a.m ≤ 99 ∧ a.d ≤ 99)
    (hb : b.y ≤ 9999 ∧ b.m ≤ 99 ∧ b.d ≤ 99) (h : fmtDate a = fmtDate b) :
    a = b := by
  have hd : (fmtDate a).data = (fmtDate b).data := by rw [h]
  rw [fmtDate_data, fmtDate_data] at hd
  simp only [List.cons.injEq, and_true] at hd
  obtain ⟨h1, h2, h3, h4, _, h5, h6, _, h7, h8⟩ := hd
  obtain ⟨hay, ham, had⟩ := ha
  obtain ⟨hby, hbm, hbd⟩ := hb
  have e1 := digitChar_injOn (by omega) (by omega) h1
  have e2 := digitChar_injOn (by omega) (by omega) h2
  have e3 := digitChar_injOn (by omega) (by omega) h3
  have e4 := digitChar_injOn (by omega) (by omega) h4
  have e5 := digitChar_injOn (by omega) (by omega) h5
  have e6 := digitChar_injOn (by omega) (by omega) h6
  have e7 := digitChar_injOn (by omega) (by omega) h7
  have e8 := digitChar_injOn (by omega) (by omega) h8
  have : a.y = b.y := by omega
  have : a.m = b.m := by omega
  have : a.d = b.d := by omega
  cases a; cases b
  simp_all

theorem fmtKey_inj {a b : Date} {s t : ℕ}
    (ha : a.y ≤ 9999 ∧ a.m ≤ 99 ∧ a.d ≤ 99)
    (hb : b.y ≤ 9999 ∧ b.m ≤ 99 ∧ b.d ≤ 99)
    (hs : s < 86400) (ht : t < 86400)
    (h : fmtKey a s = fmtKey b t) : a = b ∧ s = t := by
  have hd : (fmtKey a s).data = (fmtKey b t).data := by rw [h]
  rw [fmtKey_data, fmtKey_data, fmtDate_data, fmtDate_data,
    fmtTime_data, fmtTime_data] at hd
  simp only [List.cons_append, List.nil_append, List.cons.injEq, and_true] at hd
  obtain ⟨h1, h2, h3, h4, _, h5, h6, _, h7, h8, _,
    t1, t2, _, t3, t4, _, t5, t6⟩ := hd
  obtain ⟨hay, ham, had⟩ := ha
  obtain ⟨hby, hbm, hbd⟩ := hb
  have e1 := digitChar_injOn (by omega) (by omega) h1
  have e2 := digitChar_injOn (by omega) (by omega) h2
  have e3 := digitChar_injOn (by omega) (by omega) h3
  have e4 := digitChar_injOn (by omega) (by omega) h4
  have e5 := digitChar_injOn (by omega) (by omega) h5
  have e6 := digitChar_injOn (by omega) (by omega) h6
  have e7 := digitChar_injOn (by omega) (by omega) h7
  have e8 := digitChar_injOn (by omega) (by omega) h8
  have f1 := digitChar_injOn (by omega) (by omega) t1
  have f2 := digitChar_injOn (by omega) (by omega) t2
  have f3 := digitChar_injOn (by omega) (by omega) t3
  have f4 := digitChar_injOn (by omega) (by omega) t4
  have f5 := digitChar_injOn (by omega) (by omega) t5
  have f6 := digitChar_injOn (by omega) (by omega) t6
  constructor
  · have : a.y = b.y := by omega
    have : a.m = b.m := by omega
    have : a.d = b.d := by omega
    cases a; cases b
    simp_all
  · omega

/-! ### Splitting and affix lemmas on the generated key strings -/

theorem splitChars_not_mem {c : Char} {l : List Char} (h : c ∉ l) :
    splitChars c l = [l] := by
  induction l with
  | nil => rfl
  | cons a rest ih =>
    simp only [List.mem_cons, not_or] at h
    rw [splitChars, if_neg (fun hh => h.1 hh.symm), ih h.2]

theorem splitChars_sep {c : Char} {l1 : List Char} (l2 : List Char)
    (h : c ∉ l1) : splitChars c (l1 ++ c :: l2) = l1 :: splitChars c l2 := by
  induction l1 with
  | nil => simp [splitChars]
  | cons a rest ih =>
    simp only [List.mem_cons, not_or] at h
    simp only [List.cons_append]
    rw [splitChars, if_neg (fun hh => h.1 hh.symm), ih h.2]

theorem stringMk_data (s : String) : String.mk s.data = s := rfl

theorem space_not_mem_fmtDate (d : Date) : ' ' ∉ (fmtDate d).data := by
  rw [fmtDate_data]
  simp only [List.mem_cons, List.not_mem_nil, or_false, not_or]
  refine ⟨?_, ?_, ?_, ?_, by decide, ?_, ?_, by decide, ?_, ?_⟩ <;>
    exact fun hh => digitChar_ne_space (by omega) hh.symm

theorem space_not_mem_fmtTime (sec : ℕ) : ' ' ∉ (fmtTime sec).data := by
  rw [fmtTime_data]
  simp only [List.mem_cons, List.not_mem_nil, or_false, not_or]
  refine ⟨?_, ?_, by decide, ?_, ?_, by decide, ?_, ?_⟩ <;>
    exact fun hh => digitChar_ne_space (by omega) hh.symm

theorem colon_not_mem_pad2 (n : ℕ) : ':' ∉ (pad2 n).data := by
  rw [pad2_data]
  simp only [List.mem_cons, List.not_mem_nil, or_false, not_or]
  exact ⟨fun hh => digitChar_ne_colon (by omega) hh.symm,
    fun hh => digitChar_ne_colon (by omega) hh.symm⟩

theorem pySplit_fmtKey (d : Date) (sec : ℕ) :
    pySplit (fmtKey d sec) ' ' = [fmtDate d, fmtTime sec] := by
  unfold pySplit
  rw [fmtKey_data, splitChars_sep _ (space_not_mem_fmtDate d),
    splitChars_not_mem (space_not_mem_fmtTime sec)]
  simp [stringMk_data]

theorem pySplit_fmtTime (sec : ℕ) :
    pySplit (fmtTime sec) ':' =
      [pad2 (sec / 3600), pad2 (sec % 3600 / 60), pad2 (sec % 60)] := by
  unfold pySplit fmtTime
  have h1 : (pad2 (sec / 3600) ++ ":" ++ pad2 (sec % 3600 / 60) ++ ":" ++
      pad2 (sec % 60)).data =
      (pad2 (sec / 3600)).data ++ ':' ::
        ((pad2 (sec % 3600 / 60)).data ++ ':' :: (pad2 (sec % 60)).data) := by
    simp [String.data_append]
  rw [h1, splitChars_sep _ (colon_not_mem_pad2 _),
    splitChars_sep _ (colon_not_mem_pad2 _),
    splitChars_not_mem (colon_not_mem_pad2 _)]
  simp [stringMk_data]

theorem pyStrToNat_pad2 {n : ℕ} (h : n < 100) : pyStrToNat (pad2 n) = n := by
  have h1 := charToDigit_digitChar (show n / 10 % 10 < 10 by omega)
  have h2 := charToDigit_digitChar (show n % 10 < 10 by omega)
  unfold charToDigit at h1 h2
  simp only [pyStrToNat, pad2, List.foldl]
  omega

theorem hourOfKey_fmtKey (d : Date) (sec : ℕ) (o : ℤ) (h : sec < 86400) :
    hourOfKey (fmtKey d sec, o) = sec / 3600 := by
  unfold hourOfKey
  rw [pySplit_fmtKey]
  simp only [List.getD_cons_succ, List.getD_cons_zero]
  rw [pySplit_fmtTime]
  simp only [List.getD_cons_zero]
  exact pyStrToNat_pad2 (by omega)

theorem dateOfKey_fmtKey (d : Date) (sec : ℕ) (o : ℤ) :
    dateOfKey (fmtKey d sec, o) = fmtDate d := by
  unfold dateOfKey
  simp [pySplit_fmtKey]

theorem isSuffixOf_pair (l : List Char) (a b x y : Char) :
    ([x, y].isSuffixOf (l ++ [a, b])) = (x == a && y == b) := by
  simp [List.isSuffixOf, List.isPrefixOf, Bool.and_comm]

theorem digitChar_eq_zero {n : ℕ} (h : n < 10) :
    Nat.digitChar n = '0' ↔ n = 0 := by
  interval_cases n <;> simp_all <;> decide

theorem pyEndswith_fmtKey_00 (d : Date) (sec : ℕ) :
    pyEndswith (fmtKey d sec) "00" = true ↔ sec % 60 = 0 := by
  unfold pyEndswith
  have hd : (fmtKey d sec).data =
      ([Nat.digitChar (d.y / 1000 % 10), Nat.digitChar (d.y / 100 % 10),
        Nat.digitChar (d.y / 10 % 10), Nat.digitChar (d.y % 10), '-',
        Nat.digitChar (d.m / 10 % 10), Nat.digitChar (d.m % 10), '-',
        Nat.digitChar (d.d / 10 % 10), Nat.digitChar (d.d % 10), ' ',
        Nat.digitChar (sec / 3600 / 10 % 10), Nat.digitChar (sec / 3600 % 10), ':',
        Nat.digitChar (sec % 3600 / 60 / 10 % 10),
        Nat.digitChar (sec % 3600 / 60 % 10), ':'] ++
       [Nat.digitChar (sec % 60 / 10 % 10), Nat.digitChar (sec % 60 % 10)]) := by
    rw [fmtKey_data, fmtDate_data, fmtTime_data]
    simp
  rw [hd]
  show (String.data "00").isSuffixOf _ = true ↔ _
  have h00 : (String.data "00") = ['0', '0'] := rfl
  rw [h00, isSuffixOf_pair]
  simp only [Bool.and_eq_true, beq_iff_eq]
  rw [eq_comm (b := Nat.digitChar (sec % 60 / 10 % 10)),
    eq_comm (b := Nat.digitChar (sec % 60 % 10))]
  rw [digitChar_eq_zero (by omega), digitChar_eq_zero (by omega)]
  omega

theorem isPrefixOf_append_same_length {l1 l2 : List Char} (r : List Char)
    (h : l1.length = l2.length) : (l1.isPrefixOf (l2 ++ r)) = (l1 == l2) := by
  induction l1 generalizing l2 with
  | nil =>
    cases l2 with
    | nil => simp [List.isPrefixOf]
    | cons b bs => simp at h
  | cons a as ih =>
    cases l2 with
    | nil => simp at h
    | cons b bs =>
      simp only [List.length_cons, Nat.add_right_cancel_iff] at h
      simp only [List.cons_append, List.isPrefixOf, List.cons_beq_cons,
        List.append_eq, ih h]

theorem pyStartswith_fmtKey (a b : Date) (sec : ℕ) :
    pyStartswith (fmtKey a sec) (fmtDate b) = true ↔ fmtDate b = fmtDate a := by
  unfold pyStartswith
  rw [fmtKey_data, isPrefixOf_append_same_length]
  · simp only [beq_iff_eq]
    constructor
    · intro hh
      cases hb : fmtDate b
      cases ha : fmtDate a
      simp_all
    · intro hh
      rw [hh]
  · rw [fmtDate_data, fmtDate_data]
    simp

/-! ### Calendar order and day-loop lemmas -/

theorem daysInMonth_le (y m : ℕ) : daysInMonth y m ≤ 31 := by
  unfold daysInMonth
  split
  · split <;> omega
  · split <;> omega

theorem daysInMonth_pos (y m : ℕ) : 1 ≤ daysInMonth y m := by
  unfold daysInMonth
  split
  · split <;> omega
  · split <;> omega

theorem dateLe_iff (a b : Date) :
    dateLe a b = true ↔
      a.y < b.y ∨ (a.y = b.y ∧ (a.m < b.m ∨ (a.m = b.m ∧ a.d ≤ b.d))) := by
  simp [dateLe]

theorem dayMeasure_decreases {endd cur : Date} (h : dateLe cur endd = true) :
    dayMeasure endd (nextDay cur) < dayMeasure endd cur := by
  have hy : cur.y ≤ endd.y := by
    rcases (dateLe_iff cur endd).1 h with h1 | ⟨h1, _⟩ <;> omega
  have hdm := daysInMonth_le cur.y cur.m
  unfold nextDay dayMeasure
  split
  · simp only
    omega
  · split
    · simp only
      omega
    · simp only
      omega

theorem nextDay_WF {dt : Date} (h : WFDate dt) : WFDate (nextDay dt) := by
  obtain ⟨h1, h2, h3, h4, h5⟩ := h
  by_cases h6 : dt.d < daysInMonth dt.y dt.m
  · simp only [nextDay, if_pos h6]
    exact ⟨h1, h2, h3, Nat.le_add_left 1 dt.d, h6⟩
  · by_cases h7 : dt.m < 12
    · simp only [nextDay, if_neg h6, if_pos h7]
      exact ⟨h1, Nat.le_add_left 1 dt.m, h7, le_refl 1, daysInMonth_pos _ _⟩
    · simp only [nextDay, if_neg h6, if_neg h7]
      refine ⟨Nat.le_add_left 1 dt.y, le_refl 1, ?_, le_refl 1,
        daysInMonth_pos _ _⟩
      show (1 : ℕ) ≤ 12
      omega

theorem rankD_lt_nextDay {dt : Date} (h : WFDate dt) :
    rankD dt < rankD (nextDay dt) := by
  obtain ⟨h1, h2, h3, h4, h5⟩ := h
  have hdm := daysInMonth_le dt.y dt.m
  by_cases h6 : dt.d < daysInMonth dt.y dt.m
  · simp only [nextDay, if_pos h6]
    show rankD dt < dt.y * 372 + dt.m * 31 + (dt.d + 1)
    unfold rankD
    omega
  · by_cases h7 : dt.m < 12
    · simp only [nextDay, if_neg h6, if_pos h7]
      show rankD dt < dt.y * 372 + (dt.m + 1) * 31 + 1
      unfold rankD
      omega
    · simp only [nextDay, if_neg h6, if_neg h7]
      show rankD dt < (dt.y + 1) * 372 + 1 * 31 + 1
      unfold rankD
      omega

theorem dayListFrom_cons {cur endd : Date} (h : dateLe cur endd = true) :
    dayListFrom cur endd = cur :: dayListFrom (nextDay cur) endd := by
  rw [dayListFrom]
  simp [h]

theorem dayListFrom_nil {cur endd : Date} (h : dateLe cur endd = false) :
    dayListFrom cur endd = [] := by
  rw [dayListFrom]
  simp [h]

theorem whileDays_eq_foldl {σ : Type} (step : Date → σ → σ) (cur endd : Date)
    (s : σ) :
    whileDays step cur endd s =
      (dayListFrom cur endd).foldl (fun t d => step d t) s := by
  generalize hn : dayMeasure endd cur = n
  induction n using Nat.strong_induction_on generalizing cur s with
  | _ n ih =>
    by_cases h : dateLe cur endd = true
    · rw [whileDays, dif_pos h, dayListFrom_cons h, List.foldl_cons]
      exact ih _ (hn ▸ dayMeasure_decreases h) _ _ rfl
    · rw [whileDays, dif_neg h, dayListFrom_nil (by simpa using h)]
      rfl

theorem mem_dayListFrom_le {cur endd d : Date} (h : d ∈ dayListFrom cur endd) :
    dateLe d endd = true := by
  generalize hn : dayMeasure endd cur = n
  induction n using Nat.strong_induction_on generalizing cur with
  | _ n ih =>
    by_cases hg : dateLe cur endd = true
    · rw [dayListFrom_cons hg] at h
      rcases List.mem_cons.1 h with h1 | h1
      · exact h1 ▸ hg
      · exact ih _ (hn ▸ dayMeasure_decreases hg) h1 rfl
    · rw [dayListFrom_nil (by simpa using hg)] at h
      exact absurd h (List.not_mem_nil d)

theorem mem_dayListFrom_WF {cur endd : Date} (hw : WFDate cur) :
    ∀ d ∈ dayListFrom cur endd, WFDate d := by
  generalize hn : dayMeasure endd cur = n
  induction n using Nat.strong_induction_on generalizing cur with
  | _ n ih =>
    intro d h
    by_cases hg : dateLe cur endd = true
    · rw [dayListFrom_cons hg] at h
      rcases List.mem_cons.1 h with h1 | h1
      · exact h1 ▸ hw
      · exact ih _ (hn ▸ dayMeasure_decreases hg) (nextDay_WF hw) rfl d h1
    · rw [dayListFrom_nil (by simpa using hg)] at h
      exact absurd h (List.not_mem_nil d)

theorem rankD_le_of_mem_dayListFrom {cur endd d : Date} (hw : WFDate cur)
    (h : d ∈ dayListFrom cur endd) : rankD cur ≤ rankD d := by
  generalize hn : dayMeasure endd cur = n
  induction n using Nat.strong_induction_on generalizing cur with
  | _ n ih =>
    by_cases hg : dateLe cur endd = true
    · rw [dayListFrom_cons hg] at h
      rcases List.mem_cons.1 h with h1 | h1
      · exact h1 ▸ le_refl _
      · exact le_of_lt (lt_of_lt_of_le (rankD_lt_nextDay hw)
          (ih _ (hn ▸ dayMeasure_decreases hg) (nextDay_WF hw) h1 rfl))
    · rw [dayListFrom_nil (by simpa using hg)] at h
      exact absurd h (List.not_mem_nil d)

theorem WF_bounds {d endd : Date} (hw : WFDate d) (hle : dateLe d endd = true)
    (hy : endd.y ≤ 9999) : d.y ≤ 9999 ∧ d.m ≤ 99 ∧ d.d ≤ 99 := by
  obtain ⟨_, _, h3, _, h5⟩ := hw
  have := daysInMonth_le d.y d.m
  rcases (dateLe_iff d endd).1 hle with h1 | ⟨h1, _⟩ <;>
    exact ⟨by omega, by omega, by omega⟩

theorem fmtDate_nodup_dayListFrom {cur endd : Date} (hw : WFDate cur)
    (hy : endd.y ≤ 9999) :
    ((dayListFrom cur endd).map fmtDate).Nodup := by
  generalize hn : dayMeasure endd cur = n
  induction n using Nat.strong_induction_on generalizing cur with
  | _ n ih =>
    by_cases hg : dateLe cur endd = true
    · rw [dayListFrom_cons hg]
      simp only [List.map_cons, List.nodup_cons]
      constructor
      · intro hmem
        obtain ⟨d, hd, hfd⟩ := List.mem_map.1 hmem
        have hwd := mem_dayListFrom_WF (nextDay_WF hw) d hd
        have hcur := WF_bounds hw hg hy
        have hdd := WF_bounds hwd (mem_dayListFrom_le hd) hy
        have heq : d = cur := fmtDate_inj hdd hcur hfd
        have h1 := rankD_le_of_mem_dayListFrom (nextDay_WF hw) hd
        have h2 := rankD_lt_nextDay hw
        rw [heq] at h1
        omega
      · exact ih _ (hn ▸ dayMeasure_decreases hg) (nextDay_WF hw) rfl
    · rw [dayListFrom_nil (by simpa using hg)]
      exact List.nodup_nil

/-! ### Association-list (Python dict) lemmas -/

theorem upsert_of_not_mem {α β : Type} [DecidableEq α] {l : List (α × β)}
    {k : α} (h : k ∉ l.map Prod.fst) (v : β) : upsert l k v = l ++ [(k, v)] := by
  have hc : ¬ (l.any (fun p => decide (p.1 = k)) = true) := by
    simp only [List.any_eq_true, decide_eq_true_eq]
    rintro ⟨p, hp, rfl⟩
    exact h (List.mem_map_of_mem Prod.fst hp)
  unfold upsert
  rw [if_neg hc]

theorem upsert_keys_of_not_mem {α β : Type} [DecidableEq α] {l : List (α × β)}
    {k : α} (h : k ∉ l.map Prod.fst) (v : β) :
    (upsert l k v).map Prod.fst = l.map Prod.fst ++ [k] := by
  rw [upsert_of_not_mem h v]
  simp

theorem upsert_forall {α β : Type} [DecidableEq α] {l : List (α × β)} {k : α}
    {v : β} {P : α × β → Prop} (hl : ∀ p ∈ l, P p) (hv : P (k, v)) :
    ∀ p ∈ upsert l k v, P p := by
  unfold upsert
  split
  · intro p hp
    obtain ⟨q, hq, hqe⟩ := List.mem_map.1 hp
    by_cases hqk : q.1 = k
    · rw [if_pos hqk] at hqe
      rw [← hqe, hqk]
      exact hv
    · rw [if_neg hqk] at hqe
      exact hqe ▸ hl q hq
  · intro p hp
    rcases List.mem_append.1 hp with h1 | h1
    · exact hl p h1
    · simp only [List.mem_singleton] at h1
      exact h1 ▸ hv

theorem lookup_eq_of_mem_of_nodup {α β : Type} [BEq α] [LawfulBEq α]
    {l : List (α × β)} (hnd : (l.map Prod.fst).Nodup) {k : α} {v : β}
    (hm : (k, v) ∈ l) : l.lookup k = some v := by
  induction l with
  | nil => cases hm
  | cons a rest ih =>
    obtain ⟨a1, a2⟩ := a
    simp only [List.map_cons, List.nodup_cons] at hnd
    rcases List.mem_cons.1 hm with h1 | h1
    · rw [Prod.mk.injEq] at h1
      rw [List.lookup_cons]
      have : k == a1 := by simp [h1.1]
      simp [this, h1.2]
    · have hk : k ∈ rest.map Prod.fst := by
        have := List.mem_map_of_mem Prod.fst h1
        simpa using this
      have hne : ¬ (k == a1) := by
        simp only [beq_iff_eq]
        intro he
        exact hnd.1 (he ▸ hk)
      rw [List.lookup_cons]
      simp only [hne]
      exact ih hnd.2 h1

/-! ### Tick-loop and biometrics characterization -/

theorem whileTicks_eq_foldl {σ : Type} (step : ℕ → σ → σ) (k : ℕ)
    (hk : k ≤ 8640) (s : σ) :
    whileTicks step (86400 - 10 * k) s =
      (List.range' (86400 - 10 * k) k 10).foldl (fun t i => step i t) s := by
  induction k generalizing s with
  | zero =>
    rw [whileTicks]
    rw [if_neg (by omega)]
    rfl
  | succ k ih =>
    have h1 : 86400 - 10 * (k + 1) < 86400 := by omega
    rw [whileTicks, if_pos h1, List.range'_succ, List.foldl_cons]
    have h2 : 86400 - 10 * (k + 1) + 10 = 86400 - 10 * k := by omega
    rw [h2]
    exact ih (by omega) _

theorem bioDay_eq_foldl (E : Env) (d : Date) (s : BioState) :
    bioDay E d s = tickSecs.foldl (fun t i => tick E d i t) s := by
  have h := whileTicks_eq_foldl (tick E d) 8640 (le_refl _) s
  norm_num at h
  exact h

theorem fmtKey_ne_of_fmtDate_ne {a b : Date} (h : fmtDate a ≠ fmtDate b)
    {s t : ℕ} : fmtKey a s ≠ fmtKey b t := by
  intro he
  apply h
  have hd := congrArg String.data he
  rw [fmtKey_data, fmtKey_data] at hd
  have hlen : (fmtDate a).data.length = (fmtDate b).data.length := by
    simp [fmtDate_data]
  exact String.ext (List.append_inj hd hlen).1

/-- Keys of the four biometric dicts coincide. -/
def KeysAligned (s : BioState) : Prop :=
  s.brpm.map Prod.fst = s.bpm.map Prod.fst ∧
  s.hrv.map Prod.fst = s.bpm.map Prod.fst ∧
  s.spo2.map Prod.fst = s.bpm.map Prod.fst

theorem tick_keys (E : Env) (d : Date) (t : ℕ) (s : BioState)
    (hfresh : (fmtKey d t, TZ_OFFSET) ∉ s.bpm.map Prod.fst)
    (heq : KeysAligned s) :
    (tick E d t s).bpm.map Prod.fst =
        s.bpm.map Prod.fst ++ [(fmtKey d t, TZ_OFFSET)] ∧
      KeysAligned (tick E d t s) ∧
      (tick E d t s).st = ⟨s.st.np + 4, s.st.py⟩ := by
  obtain ⟨e1, e2, e3⟩ := heq
  unfold tick
  refine ⟨?_, ⟨?_, ?_, ?_⟩, ?_⟩
  · exact upsert_keys_of_not_mem hfresh _
  · rw [upsert_keys_of_not_mem (e1 ▸ hfresh) _,
      upsert_keys_of_not_mem hfresh _, e1]
  · rw [upsert_keys_of_not_mem (e2 ▸ hfresh) _,
      upsert_keys_of_not_mem hfresh _, e2]
  · rw [upsert_keys_of_not_mem (e3 ▸ hfresh) _,
      upsert_keys_of_not_mem hfresh _, e3]
  · simp [npNormal]

theorem bio_foldl_ticks (E : Env) (d : Date) (L : List ℕ) (s : BioState)
    (hfresh : ∀ t ∈ L, (fmtKey d t, TZ_OFFSET) ∉ s.bpm.map Prod.fst)
    (hnd : (L.map (fun t => fmtKey d t)).Nodup)
    (heq : KeysAligned s) :
    (L.foldl (fun t i => tick E d i t) s).bpm.map Prod.fst =
        s.bpm.map Prod.fst ++ L.map (fun t => (fmtKey d t, TZ_OFFSET)) ∧
      KeysAligned (L.foldl (fun t i => tick E d i t) s) ∧
      (L.foldl (fun t i => tick E d i t) s).st =
        ⟨s.st.np + 4 * L.length, s.st.py⟩ := by
  induction L generalizing s with
  | nil =>
    exact ⟨by simp, heq, by rfl⟩
  | cons t rest ih =>
    simp only [List.map_cons, List.nodup_cons] at hnd
    have hf0 : (fmtKey d t, TZ_OFFSET) ∉ s.bpm.map Prod.fst :=
      hfresh t (List.mem_cons_self t rest)
    obtain ⟨k1, k2, k3⟩ := tick_keys E d t s hf0 heq
    have hfresh' : ∀ u ∈ rest,
        (fmtKey d u, TZ_OFFSET) ∉ (tick E d t s).bpm.map Prod.fst := by
      intro u hu
      rw [k1]
      simp only [List.mem_append, List.mem_singleton, not_or]
      refine ⟨hfresh u (List.mem_cons_of_mem t hu), ?_⟩
      intro he
      rw [Prod.mk.injEq] at he
      exact hnd.1 (he.1 ▸ List.mem_map_of_mem (fun t => fmtKey d t) hu)
    obtain ⟨r1, r2, r3⟩ := ih (tick E d t s) hfresh' hnd.2 k2
    refine ⟨?_, r2, ?_⟩
    · rw [List.foldl_cons, r1, k1]
      simp
    · rw [List.foldl_cons, r3, k3]
      show (⟨s.st.np + 4 + 4 * rest.length, s.st.py⟩ : St) =
        ⟨s.st.np + 4 * (rest.length + 1), s.st.py⟩
      have he : s.st.np + 4 + 4 * rest.length = s.st.np + 4 * (rest.length + 1) := by
        omega
      rw [he]

theorem tickSecs_lt (t : ℕ) (h : t ∈ tickSecs) : t < 86400 := by
  obtain ⟨i, hi, rfl⟩ := List.mem_range'.1 h
  omega

theorem tickSecs_fmtKey_nodup {d : Date}
    (hd : d.y ≤ 9999 ∧ d.m ≤ 99 ∧ d.d ≤ 99) :
    (tickSecs.map (fun t => fmtKey d t)).Nodup := by
  unfold tickSecs
  rw [List.nodup_map_iff_inj_on (List.nodup_range' 0 8640 10 (by omega))]
  intro a ha b hb he
  exact (fmtKey_inj hd hd (tickSecs_lt a ha) (tickSecs_lt b hb) he).2

theorem tickSecs_length : tickSecs.length = 8640 := by
  simp [tickSecs]

theorem bio_days_foldl (E : Env) (ds : List Date) (s : BioState)
    (hw : ∀ d ∈ ds, d.y ≤ 9999 ∧ d.m ≤ 99 ∧ d.d ≤ 99)
    (hnd : (ds.map fmtDate).Nodup)
    (hfresh : ∀ d ∈ ds, ∀ t ∈ tickSecs,
      (fmtKey d t, TZ_OFFSET) ∉ s.bpm.map Prod.fst)
    (heq : KeysAligned s) :
    (ds.foldl (fun t d => bioDay E d t) s).bpm.map Prod.fst =
        s.bpm.map Prod.fst ++
          ds.flatMap (fun d => tickSecs.map (fun t => (fmtKey d t, TZ_OFFSET))) ∧
      KeysAligned (ds.foldl (fun t d => bioDay E d t) s) ∧
      (ds.foldl (fun t d => bioDay E d t) s).st =
        ⟨s.st.np + 4 * (8640 * ds.length), s.st.py⟩ := by
  induction ds generalizing s with
  | nil =>
    exact ⟨by simp, heq, by rfl⟩
  | cons d rest ih =>
    simp only [List.map_cons, List.nodup_cons] at hnd
    have hd := hw d (List.mem_cons_self d rest)
    obtain ⟨k1, k2, k3⟩ := bio_foldl_ticks E d tickSecs s
      (hfresh d (List.mem_cons_self d rest)) (tickSecs_fmtKey_nodup hd) heq
    rw [← bioDay_eq_foldl] at k1 k2 k3
    have hfresh' : ∀ d' ∈ rest, ∀ t ∈ tickSecs,
        (fmtKey d' t, TZ_OFFSET) ∉ (bioDay E d s).bpm.map Prod.fst := by
      intro d' hd' t ht
      rw [k1]
      simp only [List.mem_append, not_or]
      refine ⟨hfresh d' (List.mem_cons_of_mem d hd') t ht, ?_⟩
      intro he
      obtain ⟨u, _, heu⟩ := List.mem_map.1 he
      rw [Prod.mk.injEq] at heu
      have hne : fmtDate d' ≠ fmtDate d := by
        intro hdd
        exact hnd.1 (hdd ▸ List.mem_map_of_mem fmtDate hd')
      exact fmtKey_ne_of_fmtDate_ne hne heu.1.symm
    obtain ⟨r1, r2, r3⟩ := ih (bioDay E d s) (fun d' h' => hw d'
      (List.mem_cons_of_mem d h')) hnd.2 hfresh' k2
    refine ⟨?_, r2, ?_⟩
    · rw [List.foldl_cons, r1, k1]
      simp [tickSecs]
    · rw [List.foldl_cons, r3]
      rw [tickSecs_length] at k3
      rw [k3]
      show (⟨s.st.np + 4 * 8640 + 4 * (8640 * rest.length), s.st.py⟩ : St) =
        ⟨s.st.np + 4 * (8640 * (rest.length + 1)), s.st.py⟩
      have he : s.st.np + 4 * 8640 + 4 * (8640 * rest.length) =
          s.st.np + 4 * (8640 * (rest.length + 1)) := by ring
      rw [he]

theorem synthetic_biometrics_spec (E : Env) {d1 d2 : Date} (hw : WFDate d1)
    (hy : d2.y ≤ 9999) (st : St) :
    (synthetic_biometrics E d1 d2 st).1.bpm.map Prod.fst = bioKeys d1 d2 ∧
      (synthetic_biometrics E d1 d2 st).1.brpm.map Prod.fst = bioKeys d1 d2 ∧
      (synthetic_biometrics E d1 d2 st).1.hrv.map Prod.fst = bioKeys d1 d2 ∧
      (synthetic_biometrics E d1 d2 st).1.spo2.map Prod.fst = bioKeys d1 d2 ∧
      (synthetic_biometrics E d1 d2 st).2 =
        ⟨st.np + 4 * (8640 * (dayListFrom d1 d2).length), st.py⟩ := by
  have hwall : ∀ d ∈ dayListFrom d1 d2, d.y ≤ 9999 ∧ d.m ≤ 99 ∧ d.d ≤ 99 :=
    fun d hd => WF_bounds (mem_dayListFrom_WF hw d hd) (mem_dayListFrom_le hd) hy
  have hnd := fmtDate_nodup_dayListFrom hw hy
  have h := bio_days_foldl E (dayListFrom d1 d2)
    ⟨[], [], [], [], [], 0, st⟩ hwall hnd (by simp) ⟨rfl, rfl, rfl⟩
  rw [← whileDays_eq_foldl] at h
  obtain ⟨h1, ⟨h2, h3, h4⟩, h5⟩ := h
  exact ⟨h1, h2.trans h1, h3.trans h1, h4.trans h1, h5⟩

/-! ### Clamping invariant of the biometrics dicts -/

theorem tick_clamp (E : Env) (d : Date) (t : ℕ) (s : BioState)
    (hb : ∀ p ∈ s.brpm, 12 ≤ p.2 ∧ p.2 ≤ 20)
    (ho : ∀ p ∈ s.spo2, 95 ≤ p.2 ∧ p.2 ≤ 100) :
    (∀ p ∈ (tick E d t s).brpm, 12 ≤ p.2 ∧ p.2 ≤ 20) ∧
      (∀ p ∈ (tick E d t s).spo2, 95 ≤ p.2 ∧ p.2 ≤ 100) := by
  constructor
  · exact upsert_forall hb
      ⟨le_max_left _ _, max_le (by norm_num) (min_le_left _ _)⟩
  · exact upsert_forall ho
      ⟨le_max_left _ _, max_le (by norm_num) (min_le_left _ _)⟩

theorem bio_clamp_foldl (E : Env) (d : Date) (L : List ℕ) (s : BioState)
    (hb : ∀ p ∈ s.brpm, 12 ≤ p.2 ∧ p.2 ≤ 20)
    (ho : ∀ p ∈ s.spo2, 95 ≤ p.2 ∧ p.2 ≤ 100) :
    (∀ p ∈ (L.foldl (fun t i => tick E d i t) s).brpm, 12 ≤ p.2 ∧ p.2 ≤ 20) ∧
      (∀ p ∈ (L.foldl (fun t i => tick E d i t) s).spo2,
        95 ≤ p.2 ∧ p.2 ≤ 100) := by
  induction L generalizing s with
  | nil => exact ⟨hb, ho⟩
  | cons t rest ih =>
    obtain ⟨hb2, ho2⟩ := tick_clamp E d t s hb ho
    exact ih _ hb2 ho2

theorem bio_clamp_days (E : Env) (ds : List Date) (s : BioState)
    (hb : ∀ p ∈ s.brpm, 12 ≤ p.2 ∧ p.2 ≤ 20)
    (ho : ∀ p ∈ s.spo2, 95 ≤ p.2 ∧ p.2 ≤ 100) :
    (∀ p ∈ (ds.foldl (fun t d => bioDay E d t) s).brpm,
        12 ≤ p.2 ∧ p.2 ≤ 20) ∧
      (∀ p ∈ (ds.foldl (fun t d => bioDay E d t) s).spo2,
        95 ≤ p.2 ∧ p.2 ≤ 100) := by
  induction ds generalizing s with
  | nil => exact ⟨hb, ho⟩
  | cons d rest ih =>
    refine ih (bioDay E d s) ?_ ?_
    · rw [bioDay_eq_foldl]
      exact (bio_clamp_foldl E d tickSecs s hb ho).1
    · rw [bioDay_eq_foldl]
      exact (bio_clamp_foldl E d tickSecs s hb ho).2

theorem synthetic_biometrics_clamp (E : Env) (d1 d2 : Date) (st : St) :
    (∀ p ∈ (synthetic_biometrics E d1 d2 st).1.brpm, 12 ≤ p.2 ∧ p.2 ≤ 20) ∧
      (∀ p ∈ (synthetic_biometrics E d1 d2 st).1.spo2,
        95 ≤ p.2 ∧ p.2 ≤ 100) := by
  have h := bio_clamp_days E (dayListFrom d1 d2)
    ⟨[], [], [], [], [], 0, st⟩ (by simp) (by simp)
  rw [← whileDays_eq_foldl] at h
  exact h

/-! ### The strptime parser produces well-formed dates -/

theorem strToNat_bound (l : List Char) (a : ℕ)
    (h : ∀ c ∈ l, isDigitChar c = true) :
    l.foldl (fun a c => 10 * a + (c.toNat - 48)) a < (a + 1) * 10 ^ l.length := by
  induction l generalizing a with
  | nil => simp
  | cons c rest ih =>
    have hc : 48 ≤ c.toNat ∧ c.toNat ≤ 57 := by
      have := h c (List.mem_cons_self c rest)
      simpa [isDigitChar] using this
    have h1 := ih (10 * a + (c.toNat - 48)) (fun x hx => h x (List.mem_cons_of_mem c hx))
    have h2 : (10 * a + (c.toNat - 48) + 1) * 10 ^ rest.length ≤
        (a + 1) * 10 ^ (rest.length + 1) := by
      rw [pow_succ]
      have : 10 * a + (c.toNat - 48) + 1 ≤ (a + 1) * 10 := by omega
      calc (10 * a + (c.toNat - 48) + 1) * 10 ^ rest.length
            ≤ (a + 1) * 10 * 10 ^ rest.length :=
              Nat.mul_le_mul_right _ this
        _ = (a + 1) * (10 ^ rest.length * 10) := by ring
    simp only [List.foldl_cons, List.length_cons]
    exact lt_of_lt_of_le h1 h2

theorem strptime_WF {s : String} {d : Date} (h : strptime s = some d) :
    WFDate d ∧ d.y ≤ 9999 := by
  unfold strptime at h
  split at h
  case h_1 ys ms dss hsp =>
    split at h
    case isTrue hc =>
      split at h
      case isTrue hv =>
        have hy4 : pyStrToNat ys < 10000 := by
          have hb := strToNat_bound ys.data 0
            (fun c hc2 => (List.all_eq_true.1 hc.2.1) c hc2)
          have hl : ys.data.length = 4 := hc.1
          rw [hl] at hb
          simpa [pyStrToNat] using hb
        injection h with h
        subst h
        refine ⟨⟨hv.1, hv.2.1, hv.2.2.1, hv.2.2.2.1, hv.2.2.2.2⟩, ?_⟩
        show pyStrToNat ys ≤ 9999
        omega
      case isFalse => exact absurd h (by simp)
    case isFalse => exact absurd h (by simp)
  case h_2 => exact absurd h (by simp)

/-! ### Counting the per-minute ticks -/

theorem countP_mod60_range' (k a : ℕ) (ha : a % 60 = 0) :
    (List.range' a (6 * k) 10).countP (fun t => decide (t % 60 = 0)) = k := by
  induction k generalizing a with
  | zero => simp
  | succ k ih =>
    have e : 6 * (k + 1) = 6 * k + 6 := by ring
    rw [e, ← List.range'_append a 6 (6 * k) 10, List.countP_append]
    have hl : List.range' a 6 10 =
        [a, a + 10, a + 10 + 10, a + 10 + 10 + 10, a + 10 + 10 + 10 + 10,
         a + 10 + 10 + 10 + 10 + 10] := rfl
    have hblock : (List.range' a 6 10).countP
        (fun t => decide (t % 60 = 0)) = 1 := by
      rw [hl]
      simp only [List.countP_cons, List.countP_nil, decide_eq_true_eq]
      have c1 : a % 60 = 0 := ha
      have c2 : ¬((a + 10) % 60 = 0) := by omega
      have c3 : ¬((a + 10 + 10) % 60 = 0) := by omega
      have c4 : ¬((a + 10 + 10 + 10) % 60 = 0) := by omega
      have c5 : ¬((a + 10 + 10 + 10 + 10) % 60 = 0) := by omega
      have c6 : ¬((a + 10 + 10 + 10 + 10 + 10) % 60 = 0) := by omega
      simp [c1, c2, c3, c4, c5, c6]
    rw [hblock, ih (a + 10 * 6) (by omega)]
    omega

theorem countP_mod60_tickSecs :
    tickSecs.countP (fun t => decide (t % 60 = 0)) = 1440 := by
  have h := countP_mod60_range' 1440 0 (by norm_num)
  norm_num at h
  exact h

/-- The per-minute entry count of one generated day of keys. -/
theorem countP_endswith_day (d : Date) :
    ((tickSecs.map (fun t => ((fmtKey d t, TZ_OFFSET) : TKey))).countP
      (fun k => pyEndswith k.1 "00")) = 1440 := by
  rw [List.countP_map]
  have hc : List.countP ((fun k : TKey => pyEndswith k.1 "00") ∘
      (fun t => ((fmtKey d t, TZ_OFFSET) : TKey))) tickSecs =
      List.countP (fun t => decide (t % 60 = 0)) tickSecs := by
    apply List.countP_congr
    intro t ht
    simp only [Function.comp_apply, decide_eq_true_eq]
    exact pyEndswith_fmtKey_00 d t
  rw [hc, countP_mod60_tickSecs]

/-! ### Bounds of the random primitives -/

theorem randint_bounds (E : Env) (hE : Bounded E) (a b : ℤ) (hab : a ≤ b)
    (st : St) : (a : ℚ) ≤ (randint E a b st).1 ∧ (randint E a b st).1 ≤ b := by
  obtain ⟨hu0, hu1⟩ := hE st.py
  have hc : (0 : ℚ) < (b : ℚ) - (a : ℚ) + 1 := by
    have : (a : ℚ) ≤ (b : ℚ) := by exact_mod_cast hab
    linarith
  have h1 : 0 ≤ ⌊E.rand st.py * ((b : ℚ) - (a : ℚ) + 1)⌋ :=
    Int.le_floor.2 (by positivity)
  have h2 : ⌊E.rand st.py * ((b : ℚ) - (a : ℚ) + 1)⌋ < b - a + 1 := by
    rw [Int.floor_lt]
    push_cast
    calc E.rand st.py * ((b : ℚ) - (a : ℚ) + 1) < 1 * ((b : ℚ) - (a : ℚ) + 1) := by
          exact mul_lt_mul_of_pos_right hu1 hc
      _ = (b : ℚ) - (a : ℚ) + 1 := one_mul _
  unfold randint
  dsimp only
  constructor
  · exact_mod_cast (by omega : a ≤ a + ⌊E.rand st.py * ((b : ℚ) - (a : ℚ) + 1)⌋)
  · exact_mod_cast (by omega : a + ⌊E.rand st.py * ((b : ℚ) - (a : ℚ) + 1)⌋ ≤ b)

theorem uniform_bounds (E : Env) (hE : Bounded E) (a b : ℚ) (hab : a ≤ b)
    (st : St) : a ≤ (uniform E a b st).1 ∧ (uniform E a b st).1 ≤ b := by
  obtain ⟨hu0, hu1⟩ := hE st.py
  unfold uniform
  dsimp only
  constructor
  · have : 0 ≤ (b - a) * E.rand st.py := mul_nonneg (by linarith) hu0
    linarith
  · have : (b - a) * E.rand st.py ≤ (b - a) * 1 :=
      mul_le_mul_of_nonneg_left (le_of_lt hu1) (by linarith)
    linarith

theorem choice_steps_mem (E : Env) (st : St) :
    (choice E [(0 : ℚ), 0, 0, 0, 1, 2] 0 st).1 = 0 ∨
      (choice E [(0 : ℚ), 0, 0, 0, 1, 2] 0 st).1 = 1 ∨
      (choice E [(0 : ℚ), 0, 0, 0, 1, 2] 0 st).1 = 2 := by
  unfold choice
  rcases hn : (⌊E.rand st.py * (([(0 : ℚ), 0, 0, 0, 1, 2].length : ℕ) : ℚ)⌋).toNat
    with _ | _ | _ | _ | _ | _ | k <;> simp [hn, List.getD]

/-! ### Global distinctness of the generated keys -/

theorem bioKeys_strings_nodup {d1 d2 : Date} (hw : WFDate d1)
    (hy : d2.y ≤ 9999) : ((bioKeys d1 d2).map Prod.fst).Nodup := by
  unfold bioKeys
  rw [List.map_flatMap]
  rw [List.nodup_flatMap]
  constructor
  · intro d hd
    have hb := WF_bounds (mem_dayListFrom_WF hw d hd) (mem_dayListFrom_le hd) hy
    have := tickSecs_fmtKey_nodup hb
    simpa [Function.comp, List.map_map] using this
  · have hnd := fmtDate_nodup_dayListFrom hw hy
    have hpw : List.Pairwise (fun a b => fmtDate a ≠ fmtDate b)
        (dayListFrom d1 d2) := by
      have : List.Pairwise (· ≠ ·) ((dayListFrom d1 d2).map fmtDate) := hnd
      exact List.pairwise_map.1 this
    refine hpw.imp ?_
    intro a b hne
    simp only [Function.onFun, List.Disjoint]
    intro x hxa hxb
    simp only [Function.comp, List.map_map, List.mem_map] at hxa hxb
    obtain ⟨t1, _, he1⟩ := hxa
    obtain ⟨t2, _, he2⟩ := hxb
    rw [← he2] at he1
    exact fmtKey_ne_of_fmtDate_ne hne he1

theorem bioKeys_nodup {d1 d2 : Date} (hw : WFDate d1) (hy : d2.y ≤ 9999) :
    (bioKeys d1 d2).Nodup :=
  (bioKeys_strings_nodup hw hy).of_map

theorem mem_bioKeys_shape {d1 d2 : Date} {k : TKey} (h : k ∈ bioKeys d1 d2) :
    ∃ d t, k = (fmtKey d t, TZ_OFFSET) ∧ t < 86400 := by
  unfold bioKeys at h
  rw [List.mem_flatMap] at h
  obtain ⟨d, _, hk⟩ := h
  rw [List.mem_map] at hk
  obtain ⟨t, ht, hk⟩ := hk
  exact ⟨d, t, hk.symm, tickSecs_lt t ht⟩

/-! ### The steps/distance loop -/

theorem stepsBranchOK_nonneg {k : String} {b v : ℚ} (h : stepsBranchOK k b v) :
    0 ≤ v := by
  unfold stepsBranchOK at h
  split at h
  · rcases h with h | h | h <;> rw [h] <;> norm_num
  · split at h
    · linarith [h.1]
    · split at h
      · linarith [h.1]
      · linarith [h.1]

theorem stepsEntry_skip (E : Env) (s : StepsState) (kv : TKey × ℚ)
    (h : pyEndswith kv.1.1 "00" = false) : stepsEntry E s kv = s := by
  unfold stepsEntry
  rw [if_neg (by rw [h]; exact Bool.false_ne_true)]

theorem stepsEntry_minute (E : Env) (hE : Bounded E) (d : Date) (t : ℕ)
    (ht : t < 86400) (b : ℚ) (s : StepsState)
    (hmin : pyEndswith (fmtKey d t) "00" = true)
    (hfresh : fmtKey d t ∉ s.steps.map Prod.fst)
    (hfreshd : fmtKey d t ∉ s.distance.map Prod.fst) :
    ∃ v u, stepsEntry E s ((fmtKey d t, TZ_OFFSET), b) =
      ⟨s.steps ++ [(fmtKey d t, v)], s.distance ++ [(fmtKey d t, u)],
        ⟨s.st.np, s.st.py + 2⟩⟩ ∧
      stepsBranchOK (fmtKey d t) b v ∧ (7/10) * v ≤ u ∧ u ≤ (8/10) * v := by
  have hh : hourOfKey (fmtKey d t, TZ_OFFSET) = t / 3600 :=
    hourOfKey_fmtKey d t TZ_OFFSET ht
  unfold stepsEntry
  dsimp only
  rw [if_pos hmin]
  rw [pySplit_fmtKey]
  simp only [List.getD_cons_zero, List.getD_cons_succ]
  have hk2 : fmtDate d ++ " " ++ fmtTime t = fmtKey d t := rfl
  rw [hk2]
  have hhour : pyStrToNat
      ((pySplit (fmtTime t) ':').getD 0 "") = t / 3600 := by
    rw [pySplit_fmtTime]
    simp only [List.getD_cons_zero]
    exact pyStrToNat_pad2 (by omega)
  simp only [hhour]
  by_cases hn : 23 ≤ t / 3600 ∨ t / 3600 < 6
  · rw [if_pos hn]
    refine ⟨(choice E [(0 : ℚ), 0, 0, 0, 1, 2] 0 s.st).1,
      (choice E [(0 : ℚ), 0, 0, 0, 1, 2] 0 s.st).1 *
        (uniform E (7/10) (8/10) ⟨s.st.np, s.st.py + 1⟩).1, ?_, ?_, ?_, ?_⟩
    · rw [upsert_of_not_mem hfresh, upsert_of_not_mem hfreshd]
      rfl
    · unfold stepsBranchOK
      rw [if_pos (hh ▸ hn)]
      exact choice_steps_mem E s.st
    · have hv := stepsBranchOK_nonneg (v := (choice E [(0 : ℚ), 0, 0, 0, 1, 2] 0 s.st).1)
        (k := fmtKey d t) (b := b) ?_
      · have hu := uniform_bounds E hE (7/10) (8/10) (by norm_num)
          ⟨s.st.np, s.st.py + 1⟩
        calc (7/10) * (choice E [(0 : ℚ), 0, 0, 0, 1, 2] 0 s.st).1
            ≤ (uniform E (7/10) (8/10) ⟨s.st.np, s.st.py + 1⟩).1 *
              (choice E [(0 : ℚ), 0, 0, 0, 1, 2] 0 s.st).1 :=
              mul_le_mul_of_nonneg_right hu.1 hv
          _ = _ := mul_comm _ _
      · unfold stepsBranchOK
        rw [if_pos (hh ▸ hn)]
        exact choice_steps_mem E s.st
    · have hv := stepsBranchOK_nonneg (v := (choice E [(0 : ℚ), 0, 0, 0, 1, 2] 0 s.st).1)
        (k := fmtKey d t) (b := b) ?_
      · have hu := uniform_bounds E hE (7/10) (8/10) (by norm_num)
          ⟨s.st.np, s.st.py + 1⟩
        calc (choice E [(0 : ℚ), 0, 0, 0, 1, 2] 0 s.st).1 *
              (uniform E (7/10) (8/10) ⟨s.st.np, s.st.py + 1⟩).1
            ≤ (choice E [(0 : ℚ), 0, 0, 0, 1, 2] 0 s.st).1 * (8/10) :=
              mul_le_mul_of_nonneg_left hu.2 hv
          _ = (8/10) * (choice E [(0 : ℚ), 0, 0, 0, 1, 2] 0 s.st).1 :=
              mul_comm _ _
      · unfold stepsBranchOK
        rw [if_pos (hh ▸ hn)]
        exact choice_steps_mem E s.st
  · rw [if_neg hn]
    by_cases h60 : b < 60
    case pos =>
      rw [if_pos h60]
      have hr := randint_bounds E hE 0 20 (by norm_num) s.st
      have hv : (0 : ℚ) ≤ (randint E 0 20 s.st).1 := by exact_mod_cast hr.1
      have hu := uniform_bounds E hE (7/10) (8/10) (by norm_num)
        ⟨s.st.np, s.st.py + 1⟩
      refine ⟨(randint E 0 20 s.st).1,
        (randint E 0 20 s.st).1 *
          (uniform E (7/10) (8/10) ⟨s.st.np, s.st.py + 1⟩).1, ?_, ?_, ?_, ?_⟩
      · rw [upsert_of_not_mem hfresh, upsert_of_not_mem hfreshd]
        rfl
      · unfold stepsBranchOK
        rw [if_neg (hh ▸ hn), if_pos h60]
        exact ⟨hv, by exact_mod_cast hr.2⟩
      · calc (7/10) * (randint E 0 20 s.st).1
            ≤ (uniform E (7/10) (8/10) ⟨s.st.np, s.st.py + 1⟩).1 *
              (randint E 0 20 s.st).1 := mul_le_mul_of_nonneg_right hu.1 hv
          _ = _ := mul_comm _ _
      · calc (randint E 0 20 s.st).1 *
              (uniform E (7/10) (8/10) ⟨s.st.np, s.st.py + 1⟩).1
            ≤ (randint E 0 20 s.st).1 * (8/10) :=
              mul_le_mul_of_nonneg_left hu.2 hv
          _ = _ := mul_comm _ _
    case neg =>
      rw [if_neg h60]
      by_cases h80 : b < 80
      case pos =>
        rw [if_pos h80]
        have hr := randint_bounds E hE 20 40 (by norm_num) s.st
        have hv : (0 : ℚ) ≤ (randint E 20 40 s.st).1 := by
          have : (20 : ℚ) ≤ (randint E 20 40 s.st).1 := by exact_mod_cast hr.1
          linarith
        have hu := uniform_bounds E hE (7/10) (8/10) (by norm_num)
          ⟨s.st.np, s.st.py + 1⟩
        refine ⟨(randint E 20 40 s.st).1,
          (randint E 20 40 s.st).1 *
            (uniform E (7/10) (8/10) ⟨s.st.np, s.st.py + 1⟩).1, ?_, ?_, ?_, ?_⟩
        · rw [upsert_of_not_mem hfresh, upsert_of_not_mem hfreshd]
          rfl
        · unfold stepsBranchOK
          rw [if_neg (hh ▸ hn), if_neg h60, if_pos h80]
          exact ⟨by exact_mod_cast hr.1, by exact_mod_cast hr.2⟩
        · calc (7/10) * (randint E 20 40 s.st).1
              ≤ (uniform E (7/10) (8/10) ⟨s.st.np, s.st.py + 1⟩).1 *
                (randint E 20 40 s.st).1 := mul_le_mul_of_nonneg_right hu.1 hv
            _ = _ := mul_comm _ _
        · calc (randint E 20 40 s.st).1 *
                (uniform E (7/10) (8/10) ⟨s.st.np, s.st.py + 1⟩).1
              ≤ (randint E 20 40 s.st).1 * (8/10) :=
                mul_le_mul_of_nonneg_left hu.2 hv
            _ = _ := mul_comm _ _
      case neg =>
        rw [if_neg h80]
        have hr := randint_bounds E hE 40 120 (by norm_num) s.st
        have hv : (0 : ℚ) ≤ (randint E 40 120 s.st).1 := by
          have : (40 : ℚ) ≤ (randint E 40 120 s.st).1 := by exact_mod_cast hr.1
          linarith
        have hu := uniform_bounds E hE (7/10) (8/10) (by norm_num)
          ⟨s.st.np, s.st.py + 1⟩
        refine ⟨(randint E 40 120 s.st).1,
          (randint E 40 120 s.st).1 *
            (uniform E (7/10) (8/10) ⟨s.st.np, s.st.py + 1⟩).1, ?_, ?_, ?_, ?_⟩
        · rw [upsert_of_not_mem hfresh, upsert_of_not_mem hfreshd]
          rfl
        · unfold stepsBranchOK
          rw [if_neg (hh ▸ hn), if_neg h60, if_neg h80]
          exact ⟨by exact_mod_cast hr.1, by exact_mod_cast hr.2⟩
        · calc (7/10) * (randint E 40 120 s.st).1
              ≤ (uniform E (7/10) (8/10) ⟨s.st.np, s.st.py + 1⟩).1 *
                (randint E 40 120 s.st).1 := mul_le_mul_of_nonneg_right hu.1 hv
            _ = _ := mul_comm _ _
        · calc (randint E 40 120 s.st).1 *
                (uniform E (7/10) (8/10) ⟨s.st.np, s.st.py + 1⟩).1
              ≤ (randint E 40 120 s.st).1 * (8/10) :=
                mul_le_mul_of_nonneg_left hu.2 hv
            _ = _ := mul_comm _ _

theorem steps_foldl_spec (E : Env) (hE : Bounded E) (bl0 : List (TKey × ℚ))
    (rem : List (TKey × ℚ)) (s : StepsState)
    (hsub : ∀ kv ∈ rem, kv ∈ bl0)
    (hshape : ∀ kv ∈ rem, ∃ d t, kv.1 = (fmtKey d t, TZ_OFFSET) ∧ t < 86400)
    (hfresh : ∀ kv ∈ rem, kv.1.1 ∉ s.steps.map Prod.fst)
    (hnd : (rem.map (fun kv => kv.1.1)).Nodup)
    (hkeq : s.distance.map Prod.fst = s.steps.map Prod.fst)
    (hinv : List.Forall₂ (stepsPairOK bl0) s.steps s.distance) :
    List.Forall₂ (stepsPairOK bl0) (rem.foldl (stepsEntry E) s).steps
        (rem.foldl (stepsEntry E) s).distance ∧
      (rem.foldl (stepsEntry E) s).distance.map Prod.fst =
        (rem.foldl (stepsEntry E) s).steps.map Prod.fst ∧
      (rem.foldl (stepsEntry E) s).steps.map Prod.fst =
        s.steps.map Prod.fst ++
          (rem.filter (fun kv => pyEndswith kv.1.1 "00")).map
            (fun kv => kv.1.1) ∧
      (rem.foldl (stepsEntry E) s).st =
        ⟨s.st.np,
          s.st.py + 2 * rem.countP (fun kv => pyEndswith kv.1.1 "00")⟩ := by
  induction rem generalizing s with
  | nil => exact ⟨hinv, hkeq, by simp, by rfl⟩
  | cons kv rest ih =>
    obtain ⟨d, t, hk, ht⟩ := hshape kv (List.mem_cons_self kv rest)
    have hkv : kv = ((fmtKey d t, TZ_OFFSET), kv.2) := by
      rw [← hk]
    have hstr : kv.1.1 = fmtKey d t := by rw [hk]
    simp only [List.map_cons, List.nodup_cons] at hnd
    by_cases hm : pyEndswith kv.1.1 "00" = true
    · have hmin : pyEndswith (fmtKey d t) "00" = true := hstr ▸ hm
      obtain ⟨v, u, he, hbOK, hu1, hu2⟩ := stepsEntry_minute E hE d t ht kv.2 s
        hmin (hstr ▸ hfresh kv (List.mem_cons_self kv rest))
        (hkeq ▸ hstr ▸ hfresh kv (List.mem_cons_self kv rest))
      have hstep : stepsEntry E s kv =
          ⟨s.steps ++ [(fmtKey d t, v)], s.distance ++ [(fmtKey d t, u)],
            ⟨s.st.np, s.st.py + 2⟩⟩ := by
        rw [hkv] at *
        exact he
      rw [List.foldl_cons, hstep]
      have hpair : stepsPairOK bl0 (fmtKey d t, v) (fmtKey d t, u) := by
        refine ⟨rfl, kv.2, ?_, hbOK, hu1, hu2⟩
        have := hsub kv (List.mem_cons_self kv rest)
        rw [hkv] at this
        exact this
      obtain ⟨r1, r2, r3, r4⟩ := ih
        ⟨s.steps ++ [(fmtKey d t, v)], s.distance ++ [(fmtKey d t, u)],
          ⟨s.st.np, s.st.py + 2⟩⟩
        (fun q hq => hsub q (List.mem_cons_of_mem kv hq))
        (fun q hq => hshape q (List.mem_cons_of_mem kv hq))
        (by
          intro q hq
          simp only [List.map_append, List.map_cons, List.map_nil,
            List.mem_append, List.mem_singleton, not_or]
          refine ⟨hfresh q (List.mem_cons_of_mem kv hq), ?_⟩
          intro hqe
          exact hnd.1 (hstr ▸ hqe ▸
            List.mem_map_of_mem (fun kv => kv.1.1) hq))
        hnd.2
        (by simp [hkeq])
        (List.rel_append hinv (List.Forall₂.cons hpair List.Forall₂.nil))
      refine ⟨r1, r2, ?_, ?_⟩
      · rw [r3]
        have hfc : List.filter (fun kv => pyEndswith kv.1.1 "00") (kv :: rest) =
            kv :: List.filter (fun kv => pyEndswith kv.1.1 "00") rest :=
          List.filter_cons_of_pos hm
        rw [hfc]
        simp [hstr]
      · rw [r4]
        have hcc : List.countP (fun kv => pyEndswith kv.1.1 "00") (kv :: rest) =
            List.countP (fun kv => pyEndswith kv.1.1 "00") rest + 1 := by
          rw [List.countP_cons, hm]
          simp
        rw [hcc]
        show (⟨s.st.np, s.st.py + 2 + 2 * _⟩ : St) = ⟨s.st.np, s.st.py + 2 * _⟩
        have he2 : s.st.py + 2 + 2 * List.countP
            (fun kv => pyEndswith kv.1.1 "00") rest =
            s.st.py + 2 * (List.countP (fun kv => pyEndswith kv.1.1 "00") rest + 1) := by
          omega
        rw [he2]
    · have hmf : pyEndswith kv.1.1 "00" = false := by
        revert hm
        cases pyEndswith kv.1.1 "00" <;> simp
      rw [List.foldl_cons, stepsEntry_skip E s kv hmf]
      obtain ⟨r1, r2, r3, r4⟩ := ih s
        (fun q hq => hsub q (List.mem_cons_of_mem kv hq))
        (fun q hq => hshape q (List.mem_cons_of_mem kv hq))
        (fun q hq => hfresh q (List.mem_cons_of_mem kv hq))
        hnd.2 hkeq hinv
      refine ⟨r1, r2, ?_, ?_⟩
      · rw [r3, List.filter_cons_of_neg (by simp [hmf])]
      · rw [r4, List.countP_cons, hmf]
        simp

theorem countP_endswith_bioKeys (d1 d2 : Date) :
    (bioKeys d1 d2).countP (fun k => pyEndswith k.1 "00") =
      1440 * (dayListFrom d1 d2).length := by
  unfold bioKeys
  generalize dayListFrom d1 d2 = ds
  induction ds with
  | nil => rfl
  | cons d rest ih =>
    rw [List.flatMap_cons, List.countP_append, countP_endswith_day d, ih,
      List.length_cons]
    ring

theorem countP_endswith_of_keys {bl : List (TKey × ℚ)} {d1 d2 : Date}
    (hbl : bl.map Prod.fst = bioKeys d1 d2) :
    bl.countP (fun kv => pyEndswith kv.1.1 "00") =
      1440 * (dayListFrom d1 d2).length := by
  have h1 : bl.countP (fun kv => pyEndswith kv.1.1 "00") =
      (bl.map Prod.fst).countP (fun k => pyEndswith k.1 "00") := by
    rw [List.countP_map]
    rfl
  rw [h1, hbl]
  exact countP_endswith_bioKeys d1 d2

theorem synthetic_steps_spec (E : Env) (hE : Bounded E) {d1 d2 : Date}
    (hw : WFDate d1) (hy : d2.y ≤ 9999) (bl : List (TKey × ℚ))
    (hbl : bl.map Prod.fst = bioKeys d1 d2) (st : St) :
    List.Forall₂ (stepsPairOK bl)
        (synthetic_steps_distance_per_minute E bl st).1.1
        (synthetic_steps_distance_per_minute E bl st).1.2 ∧
      (synthetic_steps_distance_per_minute E bl st).1.2.map Prod.fst =
        (synthetic_steps_distance_per_minute E bl st).1.1.map Prod.fst ∧
      (synthetic_steps_distance_per_minute E bl st).1.1.map Prod.fst =
        (bl.filter (fun kv => pyEndswith kv.1.1 "00")).map (fun kv => kv.1.1) ∧
      (synthetic_steps_distance_per_minute E bl st).2 =
        ⟨st.np, st.py + 2 * (1440 * (dayListFrom d1 d2).length)⟩ ∧
      ((synthetic_steps_distance_per_minute E bl st).1.1.map Prod.fst).Nodup := by
  have hstrs : (bl.map (fun kv => kv.1.1)).Nodup := by
    have he : bl.map (fun kv => kv.1.1) = (bl.map Prod.fst).map Prod.fst := by
      rw [List.map_map]
      apply List.map_congr_left
      intro kv _
      rfl
    rw [he, hbl]
    exact bioKeys_strings_nodup hw hy
  obtain ⟨r1, r2, r3, r4⟩ := steps_foldl_spec E hE bl bl ⟨[], [], st⟩
    (fun kv h => h)
    (fun kv h => mem_bioKeys_shape (hbl ▸ List.mem_map_of_mem Prod.fst h))
    (by simp)
    hstrs rfl List.Forall₂.nil
  refine ⟨r1, r2, by simpa using r3, ?_, ?_⟩
  · show (bl.foldl (stepsEntry E) ⟨[], [], st⟩).st = _
    rw [r4, countP_endswith_of_keys hbl]
  · show ((bl.foldl (stepsEntry E) ⟨[], [], st⟩).steps.map Prod.fst).Nodup
    rw [r3]
    simp only [List.map_nil, List.nil_append]
    have hsub : ((bl.filter (fun kv => pyEndswith kv.1.1 "00")).map
        (fun kv => kv.1.1)).Sublist (bl.map (fun kv => kv.1.1)) :=
      (List.filter_sublist bl).map _
    exact hstrs.sublist hsub

/-! ### Grouping by date (`daily_bpm_averages`) -/

theorem any_key_iff {α β : Type} [DecidableEq α] (l : List (α × β)) (k : α) :
    (l.any (fun p => decide (p.1 = k)) = true) ↔ k ∈ l.map Prod.fst := by
  rw [List.any_eq_true]
  constructor
  · rintro ⟨p, hp, hpk⟩
    simp only [decide_eq_true_eq] at hpk
    exact hpk ▸ List.mem_map_of_mem Prod.fst hp
  · intro h
    obtain ⟨p, hp, hpk⟩ := List.mem_map.1 h
    exact ⟨p, hp, by simp [hpk]⟩

theorem setdefaultAppend_keys (g : List (String × List ℚ)) (k : String)
    (v : ℚ) :
    (setdefaultAppend g k v).map Prod.fst =
      if k ∈ g.map Prod.fst then g.map Prod.fst else g.map Prod.fst ++ [k] := by
  unfold setdefaultAppend
  by_cases h : k ∈ g.map Prod.fst
  · rw [if_pos ((any_key_iff g k).2 h), if_pos h, List.map_map]
    apply List.map_congr_left
    intro p _
    simp only [Function.comp_apply]
    split <;> rfl
  · rw [if_neg (fun hc => h ((any_key_iff g k).1 hc)), if_neg h]
    simp

theorem buildGroups_keys_general (l : List (TKey × ℚ))
    (g : List (String × List ℚ)) :
    (l.foldl (fun g kv => setdefaultAppend g (dateOfKey kv.1) kv.2) g).map
        Prod.fst =
      collectDates (g.map Prod.fst) (l.map (fun kv => dateOfKey kv.1)) := by
  induction l generalizing g with
  | nil => rfl
  | cons kv rest ih =>
    rw [List.foldl_cons, ih, List.map_cons]
    unfold collectDates
    rw [List.foldl_cons]
    congr 1
    rw [setdefaultAppend_keys]

theorem collectDates_nodup (l : List String) (acc : List String)
    (hacc : acc.Nodup) : (collectDates acc l).Nodup := by
  induction l generalizing acc with
  | nil => exact hacc
  | cons k rest ih =>
    unfold collectDates
    rw [List.foldl_cons]
    by_cases h : k ∈ acc
    · rw [if_pos h]
      exact ih acc hacc
    · rw [if_neg h]
      refine ih _ ?_
      simp [List.nodup_append, hacc, h]

theorem collectDates_replicate_mem (n : ℕ) (k : String) (acc : List String)
    (h : k ∈ acc) : collectDates acc (List.replicate n k) = acc := by
  induction n with
  | zero => rfl
  | succ n ih =>
    unfold collectDates
    rw [List.replicate_succ, List.foldl_cons, if_pos h]
    exact ih

theorem collectDates_append (acc : List String) (l1 l2 : List String) :
    collectDates acc (l1 ++ l2) = collectDates (collectDates acc l1) l2 := by
  unfold collectDates
  rw [List.foldl_append]

theorem collectDates_blocks (ds : List Date) (acc : List String)
    (hfresh : ∀ d ∈ ds, fmtDate d ∉ acc)
    (hnd : (ds.map fmtDate).Nodup) :
    collectDates acc
        (ds.flatMap (fun d => List.replicate 8640 (fmtDate d))) =
      acc ++ ds.map fmtDate := by
  induction ds generalizing acc with
  | nil =>
    show collectDates acc [] = acc ++ []
    rw [List.append_nil]
    rfl
  | cons d rest ih =>
    simp only [List.map_cons, List.nodup_cons] at hnd
    rw [List.flatMap_cons, collectDates_append]
    have hblock : collectDates acc (List.replicate 8640 (fmtDate d)) =
        acc ++ [fmtDate d] := by
      rw [show (8640 : ℕ) = 8639 + 1 from rfl, List.replicate_succ]
      unfold collectDates
      rw [List.foldl_cons,
        if_neg (hfresh d (List.mem_cons_self d rest))]
      exact collectDates_replicate_mem 8639 (fmtDate d) _ (by simp)
    rw [hblock, ih]
    · simp [List.map_cons]
    · intro d2 hd2
      simp only [List.mem_append, List.mem_singleton, not_or]
      refine ⟨hfresh d2 (List.mem_cons_of_mem d hd2), ?_⟩
      intro he
      exact hnd.1 (he ▸ List.mem_map_of_mem fmtDate hd2)
    · exact hnd.2

theorem groupsAvg_keys {bl : List (TKey × ℚ)} {d1 d2 : Date}
    (hbl : bl.map Prod.fst = bioKeys d1 d2) (hw : WFDate d1)
    (hy : d2.y ≤ 9999) :
    (groupsAvg bl).map Prod.fst = (dayListFrom d1 d2).map fmtDate ∧
      ((groupsAvg bl).map Prod.fst).Nodup := by
  have h0 : (groupsAvg bl).map Prod.fst = (buildGroups bl).map Prod.fst := by
    unfold groupsAvg
    rw [List.map_map]
    apply List.map_congr_left
    intro p _
    rfl
  have h1 : bl.map (fun kv => dateOfKey kv.1) =
      (dayListFrom d1 d2).flatMap (fun d => List.replicate 8640 (fmtDate d)) := by
    have h2 : bl.map (fun kv => dateOfKey kv.1) =
        (bl.map Prod.fst).map dateOfKey := by
      rw [List.map_map]
      apply List.map_congr_left
      intro kv _
      rfl
    rw [h2, hbl]
    unfold bioKeys
    rw [List.map_flatMap, List.flatMap_def, List.flatMap_def]
    congr 1
    apply List.map_congr_left
    intro d _
    show (tickSecs.map (fun t => ((fmtKey d t, TZ_OFFSET) : TKey))).map
      dateOfKey = _
    rw [List.map_map]
    have h3 : tickSecs.map (dateOfKey ∘ fun t => ((fmtKey d t, TZ_OFFSET) : TKey)) =
        tickSecs.map (fun _ => fmtDate d) := by
      apply List.map_congr_left
      intro t _
      exact dateOfKey_fmtKey d t TZ_OFFSET
    rw [h3, List.map_const', tickSecs_length]
  have hkeys : (groupsAvg bl).map Prod.fst = (dayListFrom d1 d2).map fmtDate := by
    rw [h0]
    unfold buildGroups
    rw [buildGroups_keys_general bl [], h1]
    have h4 := collectDates_blocks (dayListFrom d1 d2)
      (([] : List (String × List ℚ)).map Prod.fst) (by simp)
      (fmtDate_nodup_dayListFrom hw hy)
    rw [h4]
    simp
  exact ⟨hkeys, hkeys ▸ fmtDate_nodup_dayListFrom hw hy⟩

/-! ### The daily calories loop -/

theorem mem_of_lookup_eq_some {α β : Type} [BEq α] [LawfulBEq α]
    {l : List (α × β)} {k : α} {v : β} (h : l.lookup k = some v) :
    (k, v) ∈ l := by
  induction l with
  | nil => simp [List.lookup] at h
  | cons p rest ih =>
    obtain ⟨p1, p2⟩ := p
    rw [List.lookup_cons] at h
    by_cases hk : (k == p1) = true
    · rw [hk] at h
      simp only [Option.some.injEq] at h
      exact List.mem_cons.2 (Or.inl (by rw [eq_of_beq hk, h]))
    · rw [Bool.not_eq_true] at hk
      rw [hk] at h
      exact List.mem_cons.2 (Or.inr (ih h))

theorem lookup_map_update {α β : Type} [DecidableEq α] [BEq α] [LawfulBEq α]
    (l : List (α × β)) (k : α) (v : β) (k' : α) :
    (l.map (fun p => if p.1 = k then (p.1, v) else p)).lookup k' =
      if k' = k then (if k ∈ l.map Prod.fst then some v else none)
      else l.lookup k' := by
  induction l with
  | nil =>
    simp only [List.map_nil, List.lookup_nil]
    split <;> simp
  | cons p rest ih =>
    obtain ⟨p1, p2⟩ := p
    by_cases hp : p1 = k
    · simp only [List.map_cons, if_pos hp]
      by_cases hk : k' = k
      · have hb : (k' == p1) = true := by simp [hk, hp]
        rw [List.lookup_cons]
        simp only [hb, if_pos hk]
        have hmem : k ∈ p1 :: rest.map Prod.fst := List.mem_cons.2 (Or.inl hp.symm)
        rw [if_pos hmem]
      · have hb : (k' == p1) = false := by
          simp only [beq_eq_false_iff_ne, ne_eq]
          intro he
          exact hk (by rw [he, hp])
        rw [List.lookup_cons]
        simp only [hb, if_neg hk]
        rw [List.lookup_cons]
        simp only [hb]
        rw [ih, if_neg hk]
    · simp only [List.map_cons, if_neg hp]
      rw [List.lookup_cons, List.lookup_cons]
      by_cases hb : (k' == p1) = true
      · simp only [hb]
        have hk : ¬ (k' = k) := by
          intro he
          exact hp (by rw [← eq_of_beq hb, he])
        rw [if_neg hk]
      · rw [Bool.not_eq_true] at hb
        simp only [hb]
        rw [ih]
        by_cases hk : k' = k
        · rw [if_pos hk, if_pos hk]
          have hiff : (k ∈ p1 :: rest.map Prod.fst) ↔ k ∈ rest.map Prod.fst := by
            constructor
            · intro h1
              rcases List.mem_cons.1 h1 with h2 | h2
              · exact absurd h2.symm hp
              · exact h2
            · exact fun h2 => List.mem_cons.2 (Or.inr h2)
          rw [if_congr hiff rfl rfl]
        · rw [if_neg hk, if_neg hk]

theorem lookup_upsert {α β : Type} [DecidableEq α] [BEq α] [LawfulBEq α]
    (l : List (α × β)) (k : α) (v : β) (k' : α) :
    (upsert l k v).lookup k' = if k' = k then some v else l.lookup k' := by
  unfold upsert
  by_cases hm : k ∈ l.map Prod.fst
  · rw [if_pos ((any_key_iff l k).2 hm), lookup_map_update, if_pos hm]
  · rw [if_neg (fun hc => hm ((any_key_iff l k).1 hc))]
    induction l with
    | nil =>
      simp only [List.nil_append, List.lookup_cons, List.lookup_nil]
      by_cases hk : k' = k
      · have : (k' == k) = true := by simp [hk]
        rw [if_pos hk]
        simp [this]
      · have : (k' == k) = false := by simp [hk]
        rw [if_neg hk]
        simp [this]
    | cons p rest ih =>
      obtain ⟨p1, p2⟩ := p
      simp only [List.map_cons, List.mem_cons, not_or] at hm
      rw [List.cons_append, List.lookup_cons, List.lookup_cons]
      by_cases hb : (k' == p1) = true
      · simp only [hb]
        have hk : ¬ (k' = k) := by
          intro he
          exact hm.1 (by rw [← he, eq_of_beq hb])
        rw [if_neg hk]
      · rw [Bool.not_eq_true] at hb
        simp only [hb]
        exact ih hm.2

theorem calsEntry_spec (E : Env) (hE : Bounded E)
    (stepsD : List (String × ℚ)) (hsteps : ∀ p ∈ stepsD, 0 ≤ p.2)
    (s : CalsState) (p : String × ℚ) :
    ∃ r w a sc, calsEntry E stepsD s p =
        ⟨upsert s.rest p.1 r, upsert s.work p.1 w, upsert s.active p.1 a,
          upsert s.step p.1 sc, upsert s.total p.1 (r + w + sc + a),
          ⟨s.st.np, s.st.py + 3⟩⟩ ∧
      0 ≤ r ∧ 0 ≤ w ∧ 0 ≤ a ∧ 0 ≤ sc := by
  have hsc : (0 : ℚ) ≤
      ((stepsD.filter (fun q => pyStartswith q.1 p.1)).map (·.2)).sum * (5/100) := by
    apply mul_nonneg
    · apply List.sum_nonneg
      intro x hx
      obtain ⟨q, hq, hqe⟩ := List.mem_map.1 hx
      exact hqe ▸ hsteps q (List.mem_of_mem_filter hq)
    · norm_num
  unfold calsEntry
  dsimp only
  by_cases h60 : p.2 < 60
  · rw [if_pos h60]
    have h1 := randint_bounds E hE 50 100 (by norm_num) s.st
    have h2 := randint_bounds E hE 1000 1300 (by norm_num)
      (randint E 50 100 s.st).2
    have h3 := randint_bounds E hE 300 600 (by norm_num)
      (randint E 1000 1300 (randint E 50 100 s.st).2).2
    refine ⟨_, _, _, _, rfl, ?_, ?_, ?_, hsc⟩
    · have : (1000 : ℚ) ≤ _ := h2.1
      linarith
    · have : (300 : ℚ) ≤ _ := h3.1
      linarith
    · have : (50 : ℚ) ≤ _ := h1.1
      linarith
  · rw [if_neg h60]
    by_cases h80 : p.2 < 80
    · rw [if_pos h80]
      have h1 := randint_bounds E hE 100 200 (by norm_num) s.st
      have h2 := randint_bounds E hE 1000 1300 (by norm_num)
        (randint E 100 200 s.st).2
      have h3 := randint_bounds E hE 300 600 (by norm_num)
        (randint E 1000 1300 (randint E 100 200 s.st).2).2
      refine ⟨_, _, _, _, rfl, ?_, ?_, ?_, hsc⟩
      · have : (1000 : ℚ) ≤ _ := h2.1
        linarith
      · have : (300 : ℚ) ≤ _ := h3.1
        linarith
      · have : (100 : ℚ) ≤ _ := h1.1
        linarith
    · rw [if_neg h80]
      have h1 := randint_bounds E hE 200 300 (by norm_num) s.st
      have h2 := randint_bounds E hE 1000 1300 (by norm_num)
        (randint E 200 300 s.st).2
      have h3 := randint_bounds E hE 300 600 (by norm_num)
        (randint E 1000 1300 (randint E 200 300 s.st).2).2
      refine ⟨_, _, _, _, rfl, ?_, ?_, ?_, hsc⟩
      · have : (1000 : ℚ) ≤ _ := h2.1
        linarith
      · have : (300 : ℚ) ≤ _ := h3.1
        linarith
      · have : (200 : ℚ) ≤ _ := h1.1
        linarith

theorem cals_foldl_spec (E : Env) (hE : Bounded E)
    (stepsD : List (String × ℚ)) (hsteps : ∀ p ∈ stepsD, 0 ≤ p.2)
    (g : List (String × ℚ)) (s : CalsState)
    (hkeys : s.rest.map Prod.fst = s.total.map Prod.fst ∧
      s.work.map Prod.fst = s.total.map Prod.fst ∧
      s.step.map Prod.fst = s.total.map Prod.fst ∧
      s.active.map Prod.fst = s.total.map Prod.fst)
    (hfresh : ∀ p ∈ g, p.1 ∉ s.total.map Prod.fst)
    (hnd : (g.map Prod.fst).Nodup)
    (hlook : calsLookupOK s)
    (hnn : (∀ p ∈ s.rest, 0 ≤ p.2) ∧ (∀ p ∈ s.work, 0 ≤ p.2) ∧
      (∀ p ∈ s.step, 0 ≤ p.2) ∧ (∀ p ∈ s.active, 0 ≤ p.2)) :
    calsLookupOK (g.foldl (calsEntry E stepsD) s) ∧
      ((∀ p ∈ (g.foldl (calsEntry E stepsD) s).rest, 0 ≤ p.2) ∧
        (∀ p ∈ (g.foldl (calsEntry E stepsD) s).work, 0 ≤ p.2) ∧
        (∀ p ∈ (g.foldl (calsEntry E stepsD) s).step, 0 ≤ p.2) ∧
        (∀ p ∈ (g.foldl (calsEntry E stepsD) s).active, 0 ≤ p.2)) ∧
      (g.foldl (calsEntry E stepsD) s).total.map Prod.fst =
        s.total.map Prod.fst ++ g.map Prod.fst ∧
      ((g.foldl (calsEntry E stepsD) s).rest.map Prod.fst =
          (g.foldl (calsEntry E stepsD) s).total.map Prod.fst ∧
        (g.foldl (calsEntry E stepsD) s).work.map Prod.fst =
          (g.foldl (calsEntry E stepsD) s).total.map Prod.fst ∧
        (g.foldl (calsEntry E stepsD) s).step.map Prod.fst =
          (g.foldl (calsEntry E stepsD) s).total.map Prod.fst ∧
        (g.foldl (calsEntry E stepsD) s).active.map Prod.fst =
          (g.foldl (calsEntry E stepsD) s).total.map Prod.fst) ∧
      (g.foldl (calsEntry E stepsD) s).st =
        ⟨s.st.np, s.st.py + 3 * g.length⟩ := by
  induction g generalizing s with
  | nil => exact ⟨hlook, hnn, by simp, hkeys, by rfl⟩
  | cons p rest ih =>
    obtain ⟨v1, v2, v3, v4, he, hr, hw, ha, hsc⟩ :=
      calsEntry_spec E hE stepsD hsteps s p
    simp only [List.map_cons, List.nodup_cons] at hnd
    have hf0 := hfresh p (List.mem_cons_self p rest)
    obtain ⟨k1, k2, k3, k4⟩ := hkeys
    have hfr : p.1 ∉ s.rest.map Prod.fst := by
      rw [k1]
      exact hf0
    have hfw : p.1 ∉ s.work.map Prod.fst := by
      rw [k2]
      exact hf0
    have hfs : p.1 ∉ s.step.map Prod.fst := by
      rw [k3]
      exact hf0
    have hfa : p.1 ∉ s.active.map Prod.fst := by
      rw [k4]
      exact hf0
    have hs2keys :
        (calsEntry E stepsD s p).rest.map Prod.fst =
            (calsEntry E stepsD s p).total.map Prod.fst ∧
          (calsEntry E stepsD s p).work.map Prod.fst =
            (calsEntry E stepsD s p).total.map Prod.fst ∧
          (calsEntry E stepsD s p).step.map Prod.fst =
            (calsEntry E stepsD s p).total.map Prod.fst ∧
          (calsEntry E stepsD s p).active.map Prod.fst =
            (calsEntry E stepsD s p).total.map Prod.fst := by
      rw [he]
      dsimp only
      rw [upsert_keys_of_not_mem hfr, upsert_keys_of_not_mem hfw,
        upsert_keys_of_not_mem hfs, upsert_keys_of_not_mem hfa,
        upsert_keys_of_not_mem hf0, k1, k2, k3, k4]
      exact ⟨rfl, rfl, rfl, rfl⟩
    have hs2tot : (calsEntry E stepsD s p).total.map Prod.fst =
        s.total.map Prod.fst ++ [p.1] := by
      rw [he]
      dsimp only
      exact upsert_keys_of_not_mem hf0 _
    have hlook2 : calsLookupOK (calsEntry E stepsD s p) := by
      rw [he]
      intro k'
      dsimp only
      rw [lookup_upsert, lookup_upsert, lookup_upsert, lookup_upsert,
        lookup_upsert]
      by_cases hk : k' = p.1
      · simp only [if_pos hk]
      · simp only [if_neg hk]
        exact hlook k'
    have hnn2 : (∀ q ∈ (calsEntry E stepsD s p).rest, 0 ≤ q.2) ∧
        (∀ q ∈ (calsEntry E stepsD s p).work, 0 ≤ q.2) ∧
        (∀ q ∈ (calsEntry E stepsD s p).step, 0 ≤ q.2) ∧
        (∀ q ∈ (calsEntry E stepsD s p).active, 0 ≤ q.2) := by
      rw [he]
      exact ⟨upsert_forall hnn.1 hr, upsert_forall hnn.2.1 hw,
        upsert_forall hnn.2.2.1 hsc, upsert_forall hnn.2.2.2 ha⟩
    obtain ⟨r1, r2, r3, r4, r5⟩ := ih (calsEntry E stepsD s p) hs2keys
      (by
        intro q hq
        rw [hs2tot]
        simp only [List.mem_append, List.mem_singleton, not_or]
        exact ⟨hfresh q (List.mem_cons_of_mem p hq),
          fun heq => hnd.1 (heq ▸ List.mem_map_of_mem Prod.fst hq)⟩)
      hnd.2 hlook2 hnn2
    refine ⟨r1, r2, ?_, r4, ?_⟩
    · rw [List.foldl_cons] at *
      rw [r3, hs2tot]
      simp
    · rw [List.foldl_cons] at *
      rw [r5]
      have hst : (calsEntry E stepsD s p).st = ⟨s.st.np, s.st.py + 3⟩ := by
        rw [he]
      rw [hst]
      show (⟨s.st.np, s.st.py + 3 + 3 * rest.length⟩ : St) =
        ⟨s.st.np, s.st.py + 3 * (rest.length + 1)⟩
      have harith : s.st.py + 3 + 3 * rest.length =
          s.st.py + 3 * (rest.length + 1) := by omega
      rw [harith]

theorem synthetic_daily_calories_spec (E : Env) (hE : Bounded E)
    {d1 d2 : Date} (hw : WFDate d1) (hy : d2.y ≤ 9999)
    (bl : List (TKey × ℚ)) (hbl : bl.map Prod.fst = bioKeys d1 d2)
    (stepsD : List (String × ℚ)) (hsteps : ∀ p ∈ stepsD, 0 ≤ p.2) (st : St) :
    (∀ k, (synthetic_daily_calories E bl stepsD st).1.total_cals.lookup k =
      match (synthetic_daily_calories E bl stepsD st).1.rest_cals.lookup k,
          (synthetic_daily_calories E bl stepsD st).1.work_cals.lookup k,
          (synthetic_daily_calories E bl stepsD st).1.step_cals.lookup k,
          (synthetic_daily_calories E bl stepsD st).1.active_cals.lookup k with
      | some rr, some ww, some sc, some aa => some (rr + ww + sc + aa)
      | _, _, _, _ => none) ∧
      ((∀ p ∈ (synthetic_daily_calories E bl stepsD st).1.rest_cals, 0 ≤ p.2) ∧
        (∀ p ∈ (synthetic_daily_calories E bl stepsD st).1.work_cals, 0 ≤ p.2) ∧
        (∀ p ∈ (synthetic_daily_calories E bl stepsD st).1.step_cals, 0 ≤ p.2) ∧
        (∀ p ∈ (synthetic_daily_calories E bl stepsD st).1.active_cals, 0 ≤ p.2)) ∧
      (synthetic_daily_calories E bl stepsD st).1.total_cals.map Prod.fst =
        (dayListFrom d1 d2).map fmtDate ∧
      ((synthetic_daily_calories E bl stepsD st).1.rest_cals.map Prod.fst =
          (dayListFrom d1 d2).map fmtDate ∧
        (synthetic_daily_calories E bl stepsD st).1.work_cals.map Prod.fst =
          (dayListFrom d1 d2).map fmtDate ∧
        (synthetic_daily_calories E bl stepsD st).1.step_cals.map Prod.fst =
          (dayListFrom d1 d2).map fmtDate ∧
        (synthetic_daily_calories E bl stepsD st).1.active_cals.map Prod.fst =
          (dayListFrom d1 d2).map fmtDate) ∧
      (synthetic_daily_calories E bl stepsD st).2 =
        ⟨st.np, st.py + 3 * (dayListFrom d1 d2).length⟩ := by
  obtain ⟨hgk, hgnd⟩ := groupsAvg_keys hbl hw hy
  obtain ⟨r1, r2, r3, r4, r5⟩ := cals_foldl_spec E hE stepsD hsteps
    (groupsAvg bl) ⟨[], [], [], [], [], st⟩
    ⟨rfl, rfl, rfl, rfl⟩ (by simp) (hgk ▸ hgnd)
    (by
      intro k
      rfl)
    ⟨by simp, by simp, by simp, by simp⟩
  have hlen : (groupsAvg bl).length = (dayListFrom d1 d2).length := by
    have := congrArg List.length hgk
    simpa using this
  have htotk : (synthetic_daily_calories E bl stepsD st).1.total_cals.map
      Prod.fst = (dayListFrom d1 d2).map fmtDate := by
    show ((groupsAvg bl).foldl (calsEntry E stepsD)
      ⟨[], [], [], [], [], st⟩).total.map Prod.fst = _
    rw [r3]
    simpa using hgk
  refine ⟨r1, r2, htotk, ?_, ?_⟩
  · exact ⟨r4.1.trans htotk, r4.2.1.trans htotk, r4.2.2.1.trans htotk,
      r4.2.2.2.trans htotk⟩
  · show ((groupsAvg bl).foldl (calsEntry E stepsD)
      ⟨[], [], [], [], [], st⟩).st = _
    rw [r5, hlen]

theorem synthetic_activity_st (E : Env) (d1 d2 : Date) (st : St) :
    (synthetic_activity E d1 d2 st).2 = ⟨st.np, st.py + 7⟩ := rfl

theorem synthetic_sleep_detail_spec (E : Env) (d1 d2 : Date) (st : St) :
    (synthetic_sleep_detail E d1 d2 st).2 = ⟨st.np, st.py + 4⟩ ∧
      (synthetic_sleep_detail E d1 d2 st).1.light_sleep +
        (synthetic_sleep_detail E d1 d2 st).1.deep_sleep +
        (synthetic_sleep_detail E d1 d2 st).1.rem_sleep = 8 ∧
      (synthetic_sleep_detail E d1 d2 st).1.times_awoken =
        ((1 + ⌊E.rand (st.py + 3) * ((5 : ℚ) - 1 + 1)⌋ : ℤ) : ℚ) := by
  refine ⟨rfl, ?_, rfl⟩
  show (uniform E (2/5) (3/5) st).1 * 8 +
      (uniform E (1/5) (3/10) ⟨st.np, st.py + 1⟩).1 * 8 +
      (8 - ((uniform E (2/5) (3/5) st).1 * 8 +
        (uniform E (1/5) (3/10) ⟨st.np, st.py + 1⟩).1 * 8)) = 8
  ring

/-- Unfolding of `create_syn_data` on successfully parsed dates into its
stage composition. -/
theorem create_syn_data_eq (E : Env) {s1 s2 : String} {d1 d2 : Date}
    (h1 : strptime s1 = some d1) (h2 : strptime s2 = some d2) (st : St) :
    create_syn_data E s1 s2 st = .ok
      (⟨(synthetic_activity E d1 d2 (synthetic_daily_calories E (synthetic_biometrics E d1 d2 st).1.bpm (synthetic_steps_distance_per_minute E (synthetic_biometrics E d1 d2 st).1.bpm (synthetic_biometrics E d1 d2 st).2).1.1 (synthetic_steps_distance_per_minute E (synthetic_biometrics E d1 d2 st).1.bpm (synthetic_biometrics E d1 d2 st).2).2).2).1,
        (synthetic_biometrics E d1 d2 st).1.bpm,
        (synthetic_biometrics E d1 d2 st).1.brpm,
        (synthetic_biometrics E d1 d2 st).1.hrv,
        (synthetic_biometrics E d1 d2 st).1.spo2,
        (synthetic_daily_calories E (synthetic_biometrics E d1 d2 st).1.bpm (synthetic_steps_distance_per_minute E (synthetic_biometrics E d1 d2 st).1.bpm (synthetic_biometrics E d1 d2 st).2).1.1 (synthetic_steps_distance_per_minute E (synthetic_biometrics E d1 d2 st).1.bpm (synthetic_biometrics E d1 d2 st).2).2).1.rest_cals,
        (synthetic_daily_calories E (synthetic_biometrics E d1 d2 st).1.bpm (synthetic_steps_distance_per_minute E (synthetic_biometrics E d1 d2 st).1.bpm (synthetic_biometrics E d1 d2 st).2).1.1 (synthetic_steps_distance_per_minute E (synthetic_biometrics E d1 d2 st).1.bpm (synthetic_biometrics E d1 d2 st).2).2).1.work_cals,
        (synthetic_daily_calories E (synthetic_biometrics E d1 d2 st).1.bpm (synthetic_steps_distance_per_minute E (synthetic_biometrics E d1 d2 st).1.bpm (synthetic_biometrics E d1 d2 st).2).1.1 (synthetic_steps_distance_per_minute E (synthetic_biometrics E d1 d2 st).1.bpm (synthetic_biometrics E d1 d2 st).2).2).1.active_cals,
        (synthetic_daily_calories E (synthetic_biometrics E d1 d2 st).1.bpm (synthetic_steps_distance_per_minute E (synthetic_biometrics E d1 d2 st).1.bpm (synthetic_biometrics E d1 d2 st).2).1.1 (synthetic_steps_distance_per_minute E (synthetic_biometrics E d1 d2 st).1.bpm (synthetic_biometrics E d1 d2 st).2).2).1.step_cals,
        (synthetic_daily_calories E (synthetic_biometrics E d1 d2 st).1.bpm (synthetic_steps_distance_per_minute E (synthetic_biometrics E d1 d2 st).1.bpm (synthetic_biometrics E d1 d2 st).2).1.1 (synthetic_steps_distance_per_minute E (synthetic_biometrics E d1 d2 st).1.bpm (synthetic_biometrics E d1 d2 st).2).2).1.total_cals,
        synthetic_sleep_session (synthetic_biometrics E d1 d2 st).1.bpm,
        (synthetic_sleep_detail E d1 d2 (synthetic_activity E d1 d2 (synthetic_daily_calories E (synthetic_biometrics E d1 d2 st).1.bpm (synthetic_steps_distance_per_minute E (synthetic_biometrics E d1 d2 st).1.bpm (synthetic_biometrics E d1 d2 st).2).1.1 (synthetic_steps_distance_per_minute E (synthetic_biometrics E d1 d2 st).1.bpm (synthetic_biometrics E d1 d2 st).2).2).2).2).1,
        (synthetic_steps_distance_per_minute E (synthetic_biometrics E d1 d2 st).1.bpm (synthetic_biometrics E d1 d2 st).2).1.1,
        (synthetic_steps_distance_per_minute E (synthetic_biometrics E d1 d2 st).1.bpm (synthetic_biometrics E d1 d2 st).2).1.2⟩,
       (synthetic_sleep_detail E d1 d2 (synthetic_activity E d1 d2 (synthetic_daily_calories E (synthetic_biometrics E d1 d2 st).1.bpm (synthetic_steps_distance_per_minute E (synthetic_biometrics E d1 d2 st).1.bpm (synthetic_biometrics E d1 d2 st).2).1.1 (synthetic_steps_distance_per_minute E (synthetic_biometrics E d1 d2 st).1.bpm (synthetic_biometrics E d1 d2 st).2).2).2).2).2) := by
  unfold create_syn_data
  rw [h1, h2]

/-! ### Remaining helper lemmas for the claims -/

theorem forall₂_mem_left {α β : Type} {R : α → β → Prop} {l1 : List α}
    {l2 : List β} (h : List.Forall₂ R l1 l2) {a : α} (ha : a ∈ l1) :
    ∃ b ∈ l2, R a b := by
  induction h with
  | nil => cases ha
  | cons h1 h2 ih =>
    rcases List.mem_cons.1 ha with h3 | h3
    · exact ⟨_, List.mem_cons_self _ _, h3 ▸ h1⟩
    · obtain ⟨b, hb, hr⟩ := ih h3
      exact ⟨b, List.mem_cons_of_mem _ hb, hr⟩

theorem dateLe_false_iff (a b : Date) :
    dateLe a b = false ↔
      b.y < a.y ∨ (b.y = a.y ∧ (b.m < a.m ∨ (b.m = a.m ∧ b.d < a.d))) := by
  rw [← Bool.not_eq_true, dateLe_iff]
  omega

theorem nextDay_minimal {cur endd : Date} (hwc : WFDate cur)
    (hwe : WFDate endd) (h1 : dateLe cur endd = true)
    (h2 : dateLe (nextDay cur) endd = false) : cur = endd := by
  obtain ⟨w1, w2, w3, w4, w5⟩ := hwc
  obtain ⟨v1, v2, v3, v4, v5⟩ := hwe
  rw [dateLe_iff] at h1
  rw [dateLe_false_iff] at h2
  have heta : cur = (⟨cur.y, cur.m, cur.d⟩ : Date) := rfl
  have heta2 : endd = (⟨endd.y, endd.m, endd.d⟩ : Date) := rfl
  by_cases hd : cur.d < daysInMonth cur.y cur.m
  · have hnd : nextDay cur = ⟨cur.y, cur.m, cur.d + 1⟩ := by
      simp [nextDay, hd]
    rw [hnd] at h2
    have e1 : (⟨cur.y, cur.m, cur.d + 1⟩ : Date).y = cur.y := rfl
    have e2 : (⟨cur.y, cur.m, cur.d + 1⟩ : Date).m = cur.m := rfl
    have e3 : (⟨cur.y, cur.m, cur.d + 1⟩ : Date).d = cur.d + 1 := rfl
    rw [e1, e2, e3] at h2
    have hy : cur.y = endd.y := by omega
    have hm : cur.m = endd.m := by omega
    have hdd : cur.d = endd.d := by omega
    rw [heta, heta2, hy, hm, hdd]
  · by_cases hm12 : cur.m < 12
    · have hnd : nextDay cur = ⟨cur.y, cur.m + 1, 1⟩ := by
        simp [nextDay, hd, hm12]
      rw [hnd] at h2
      have e1 : (⟨cur.y, cur.m + 1, 1⟩ : Date).y = cur.y := rfl
      have e2 : (⟨cur.y, cur.m + 1, 1⟩ : Date).m = cur.m + 1 := rfl
      have e3 : (⟨cur.y, cur.m + 1, 1⟩ : Date).d = 1 := rfl
      rw [e1, e2, e3] at h2
      have hy : cur.y = endd.y := by omega
      have hm : cur.m = endd.m := by omega
      have hdime : daysInMonth endd.y endd.m = daysInMonth cur.y cur.m := by
        rw [← hy, ← hm]
      have hdd : cur.d = endd.d := by omega
      rw [heta, heta2, hy, hm, hdd]
    · have hnd : nextDay cur = ⟨cur.y + 1, 1, 1⟩ := by
        simp [nextDay, hd, hm12]
      rw [hnd] at h2
      have e1 : (⟨cur.y + 1, 1, 1⟩ : Date).y = cur.y + 1 := rfl
      have e2 : (⟨cur.y + 1, 1, 1⟩ : Date).m = 1 := rfl
      have e3 : (⟨cur.y + 1, 1, 1⟩ : Date).d = 1 := rfl
      rw [e1, e2, e3] at h2
      have hy : cur.y = endd.y := by omega
      have hm : cur.m = endd.m := by omega
      have hdime : daysInMonth endd.y endd.m = daysInMonth cur.y cur.m := by
        rw [← hy, ← hm]
      have hdd : cur.d = endd.d := by omega
      rw [heta, heta2, hy, hm, hdd]

theorem dayListFrom_head {d1 d2 : Date} (h : dateLe d1 d2 = true) :
    (dayListFrom d1 d2).head? = some d1 := by
  rw [dayListFrom_cons h]
  rfl

theorem dayListFrom_getLast {d1 d2 : Date} (hw1 : WFDate d1)
    (hw2 : WFDate d2) (h : dateLe d1 d2 = true) :
    (dayListFrom d1 d2).getLast? = some d2 := by
  generalize hn : dayMeasure d2 d1 = n
  induction n using Nat.strong_induction_on generalizing d1 with
  | _ n ih =>
    rw [dayListFrom_cons h]
    by_cases hg : dateLe (nextDay d1) d2 = true
    · rw [dayListFrom_cons hg, List.getLast?_cons_cons,
        ← dayListFrom_cons hg]
      exact ih _ (hn ▸ dayMeasure_decreases h) (nextDay_WF hw1) hg rfl
    · rw [dayListFrom_nil (by simpa using hg)]
      rw [nextDay_minimal hw1 hw2 h (by simpa using hg)]
      rfl

theorem synthetic_biometrics_empty (E : Env) {d1 d2 : Date}
    (h : dateLe d1 d2 = false) (st : St) :
    synthetic_biometrics E d1 d2 st = (⟨[], [], [], []⟩, st) := by
  unfold synthetic_biometrics
  rw [whileDays, dif_neg (by rw [h]; exact Bool.false_ne_true)]

theorem pySlice_upper_one {α : Type} (l : List α) (a : ℤ) :
    (pySlice l a 1).length ≤ 1 ∧ (1 ≤ a → pySlice l a 1 = []) ∧
      (a = 0 → pySlice l a 1 = l.take 1) := by
  have hps : pySlice l a 1 =
      (l.take (min 1 l.length)).drop
        (if a < 0 then ((l.length : ℤ) + a).toNat
          else min a.toNat l.length) := by
    unfold pySlice
    norm_num
  refine ⟨?_, ?_, ?_⟩
  · rw [hps, List.length_drop, List.length_take]
    omega
  · intro ha
    rw [hps, if_neg (by omega : ¬ (a < 0))]
    apply List.drop_eq_nil_of_le
    rw [List.length_take]
    omega
  · intro ha
    subst ha
    rw [hps, if_neg (by omega : ¬ ((0 : ℤ) < 0)),
      show min (0 : ℤ).toNat l.length = 0 by simp, List.drop_zero]
    by_cases hn : l.length = 0
    · rw [List.eq_nil_of_length_eq_zero hn]
      simp
    · rw [show min 1 l.length = 1 by omega]

theorem bounded_E0 : Bounded E0 := by
  intro n
  constructor <;> norm_num [E0]

theorem bounded_E1 : Bounded E1 := by
  intro n
  constructor <;> (simp only [E1]; split <;> norm_num)

theorem strptime_20220101 : strptime "2022-01-01" = some ⟨2022, 1, 1⟩ := by
  rfl

theorem strptime_20220102 : strptime "2022-01-02" = some ⟨2022, 1, 2⟩ := by
  rfl

theorem dayListFrom_2022 :
    dayListFrom ⟨2022, 1, 1⟩ ⟨2022, 1, 1⟩ = [⟨2022, 1, 1⟩] := by
  rw [dayListFrom_cons (by decide), dayListFrom_nil (by decide)]

/-- The per-stage random-stream advances composed over the whole of
`create_syn_data`: the numpy stream moves by `4` per 10-second tick, the
`random` stream by `2` per minute entry, `3` per calorie date, `7` in the
activity record and `4` in the sleep detail, whose `times_awoken` draw is
the last-but-one position. -/
theorem create_syn_data_st (E : Env) (hE : Bounded E) {s1 s2 : String}
    {d1 d2 : Date} (hp1 : strptime s1 = some d1) (hp2 : strptime s2 = some d2)
    (st : St) :
    ∃ b : Bundle, create_syn_data E s1 s2 st = .ok (b,
        ⟨st.np + 4 * (8640 * (dayListFrom d1 d2).length),
         st.py + 2 * (1440 * (dayListFrom d1 d2).length) +
           3 * (dayListFrom d1 d2).length + 7 + 4⟩) ∧
      b.sleep_detail.times_awoken =
        ((1 + ⌊E.rand (st.py + 2 * (1440 * (dayListFrom d1 d2).length) +
          3 * (dayListFrom d1 d2).length + 7 + 3) * ((5 : ℚ) - 1 + 1)⌋ :
            ℤ) : ℚ) := by
  have hw1 := (strptime_WF hp1).1
  have hy2 := (strptime_WF hp2).2
  obtain ⟨hb1, hb2, hb3, hb4, hb5⟩ := synthetic_biometrics_spec E hw1 hy2 st
  obtain ⟨hs1, hs2, hs3, hs4, hs5⟩ := synthetic_steps_spec E hE hw1 hy2
    (synthetic_biometrics E d1 d2 st).1.bpm hb1
    (synthetic_biometrics E d1 d2 st).2
  have hnn : ∀ p ∈ (synthetic_steps_distance_per_minute E
      (synthetic_biometrics E d1 d2 st).1.bpm
      (synthetic_biometrics E d1 d2 st).2).1.1, 0 ≤ p.2 := by
    intro p hp
    obtain ⟨q, hq, hrel⟩ := forall₂_mem_left hs1 hp
    obtain ⟨-, b, -, hbr, -, -⟩ := hrel
    exact stepsBranchOK_nonneg hbr
  obtain ⟨hc1, hc2, hc3, hc4, hc5⟩ := synthetic_daily_calories_spec E hE hw1
    hy2 (synthetic_biometrics E d1 d2 st).1.bpm hb1
    (synthetic_steps_distance_per_minute E
      (synthetic_biometrics E d1 d2 st).1.bpm
      (synthetic_biometrics E d1 d2 st).2).1.1 hnn
    (synthetic_steps_distance_per_minute E
      (synthetic_biometrics E d1 d2 st).1.bpm
      (synthetic_biometrics E d1 d2 st).2).2
  have ha := synthetic_activity_st E d1 d2
    (synthetic_daily_calories E (synthetic_biometrics E d1 d2 st).1.bpm
      (synthetic_steps_distance_per_minute E
        (synthetic_biometrics E d1 d2 st).1.bpm
        (synthetic_biometrics E d1 d2 st).2).1.1
      (synthetic_steps_distance_per_minute E
        (synthetic_biometrics E d1 d2 st).1.bpm
        (synthetic_biometrics E d1 d2 st).2).2).2
  obtain ⟨hd1, hd2, hd3⟩ := synthetic_sleep_detail_spec E d1 d2
    (synthetic_activity E d1 d2
      (synthetic_daily_calories E (synthetic_biometrics E d1 d2 st).1.bpm
        (synthetic_steps_distance_per_minute E
          (synthetic_biometrics E d1 d2 st).1.bpm
          (synthetic_biometrics E d1 d2 st).2).1.1
        (synthetic_steps_distance_per_minute E
          (synthetic_biometrics E d1 d2 st).1.bpm
          (synthetic_biometrics E d1 d2 st).2).2).2).2
  have hACT : (synthetic_activity E d1 d2
      (synthetic_daily_calories E (synthetic_biometrics E d1 d2 st).1.bpm
        (synthetic_steps_distance_per_minute E
          (synthetic_biometrics E d1 d2 st).1.bpm
          (synthetic_biometrics E d1 d2 st).2).1.1
        (synthetic_steps_distance_per_minute E
          (synthetic_biometrics E d1 d2 st).1.bpm
          (synthetic_biometrics E d1 d2 st).2).2).2).2 =
      ⟨st.np + 4 * (8640 * (dayListFrom d1 d2).length),
       st.py + 2 * (1440 * (dayListFrom d1 d2).length) +
         3 * (dayListFrom d1 d2).length + 7⟩ := by
    rw [ha, hc5, hs4, hb5]
  refine ⟨⟨(synthetic_activity E d1 d2 (synthetic_daily_calories E (synthetic_biometrics E d1 d2 st).1.bpm (synthetic_steps_distance_per_minute E (synthetic_biometrics E d1 d2 st).1.bpm (synthetic_biometrics E d1 d2 st).2).1.1 (synthetic_steps_distance_per_minute E (synthetic_biometrics E d1 d2 st).1.bpm (synthetic_biometrics E d1 d2 st).2).2).2).1,
    (synthetic_biometrics E d1 d2 st).1.bpm,
    (synthetic_biometrics E d1 d2 st).1.brpm,
    (synthetic_biometrics E d1 d2 st).1.hrv,
    (synthetic_biometrics E d1 d2 st).1.spo2,
    (synthetic_daily_calories E (synthetic_biometrics E d1 d2 st).1.bpm (synthetic_steps_distance_per_minute E (synthetic_biometrics E d1 d2 st).1.bpm (synthetic_biometrics E d1 d2 st).2).1.1 (synthetic_steps_distance_per_minute E (synthetic_biometrics E d1 d2 st).1.bpm (synthetic_biometrics E d1 d2 st).2).2).1.rest_cals,
    (synthetic_daily_calories E (synthetic_biometrics E d1 d2 st).1.bpm (synthetic_steps_distance_per_minute E (synthetic_biometrics E d1 d2 st).1.bpm (synthetic_biometrics E d1 d2 st).2).1.1 (synthetic_steps_distance_per_minute E (synthetic_biometrics E d1 d2 st).1.bpm (synthetic_biometrics E d1 d2 st).2).2).1.work_cals,
    (synthetic_daily_calories E (synthetic_biometrics E d1 d2 st).1.bpm (synthetic_steps_distance_per_minute E (synthetic_biometrics E d1 d2 st).1.bpm (synthetic_biometrics E d1 d2 st).2).1.1 (synthetic_steps_distance_per_minute E (synthetic_biometrics E d1 d2 st).1.bpm (synthetic_biometrics E d1 d2 st).2).2).1.active_cals,
    (synthetic_daily_calories E (synthetic_biometrics E d1 d2 st).1.bpm (synthetic_steps_distance_per_minute E (synthetic_biometrics E d1 d2 st).1.bpm (synthetic_biometrics E d1 d2 st).2).1.1 (synthetic_steps_distance_per_minute E (synthetic_biometrics E d1 d2 st).1.bpm (synthetic_biometrics E d1 d2 st).2).2).1.step_cals,
    (synthetic_daily_calories E (synthetic_biometrics E d1 d2 st).1.bpm (synthetic_steps_distance_per_minute E (synthetic_biometrics E d1 d2 st).1.bpm (synthetic_biometrics E d1 d2 st).2).1.1 (synthetic_steps_distance_per_minute E (synthetic_biometrics E d1 d2 st).1.bpm (synthetic_biometrics E d1 d2 st).2).2).1.total_cals,
    synthetic_sleep_session (synthetic_biometrics E d1 d2 st).1.bpm,
    (synthetic_sleep_detail E d1 d2 (synthetic_activity E d1 d2 (synthetic_daily_calories E (synthetic_biometrics E d1 d2 st).1.bpm (synthetic_steps_distance_per_minute E (synthetic_biometrics E d1 d2 st).1.bpm (synthetic_biometrics E d1 d2 st).2).1.1 (synthetic_steps_distance_per_minute E (synthetic_biometrics E d1 d2 st).1.bpm (synthetic_biometrics E d1 d2 st).2).2).2).2).1,
    (synthetic_steps_distance_per_minute E (synthetic_biometrics E d1 d2 st).1.bpm (synthetic_biometrics E d1 d2 st).2).1.1,
    (synthetic_steps_distance_per_minute E (synthetic_biometrics E d1 d2 st).1.bpm (synthetic_biometrics E d1 d2 st).2).1.2⟩, ?_, ?_⟩
  · rw [create_syn_data_eq E hp1 hp2 st, hd1, hACT]
  · exact hd3.trans (by rw [hACT])

theorem lookup_of_mem_keys {α β : Type} [BEq α] [LawfulBEq α]
    {l : List (α × β)} {k : α} (h : k ∈ l.map Prod.fst) :
    ∃ v, l.lookup k = some v := by
  induction l with
  | nil => simp at h
  | cons a rest ih =>
    obtain ⟨a1, a2⟩ := a
    rw [List.lookup_cons]
    by_cases hk : (k == a1) = true
    · exact ⟨a2, by rw [hk]⟩
    · have hk2 : (k == a1) = false := by
        rw [← Bool.not_eq_true]
        exact hk
      rw [List.map_cons] at h
      rcases List.mem_cons.1 h with h1 | h1
      · exact absurd h1 (by simpa using hk)
      · obtain ⟨v, hv⟩ := ih h1
        exact ⟨v, by rw [hk2, hv]⟩

theorem bioRangesOK_spec (E : Env) (d1 d2 : Date) (st : St) :
    bioRangesOK (synthetic_biometrics E d1 d2 st).1 = true := by
  obtain ⟨h1, h2⟩ := synthetic_biometrics_clamp E d1 d2 st
  unfold bioRangesOK
  rw [Bool.and_eq_true]
  constructor
  · rw [List.all_eq_true]
    intro kv hkv
    exact decide_eq_true (h1 kv hkv)
  · rw [List.all_eq_true]
    intro kv hkv
    exact decide_eq_true (h2 kv hkv)

theorem calsOK_of_spec {total rest work step active : List (String × ℚ)}
    (hlookup : ∀ k, total.lookup k = match rest.lookup k, work.lookup k,
      step.lookup k, active.lookup k with
      | some rr, some ww, some sc, some aa => some (rr + ww + sc + aa)
      | _, _, _, _ => none)
    (hnnr : ∀ p ∈ rest, 0 ≤ p.2) (hnnw : ∀ p ∈ work, 0 ≤ p.2)
    (hnns : ∀ p ∈ step, 0 ≤ p.2) (hnna : ∀ p ∈ active, 0 ≤ p.2)
    (hnd : (total.map Prod.fst).Nodup)
    (hkr : rest.map Prod.fst = total.map Prod.fst)
    (hkw : work.map Prod.fst = total.map Prod.fst)
    (hks : step.map Prod.fst = total.map Prod.fst)
    (hka : active.map Prod.fst = total.map Prod.fst)
    (b : Bundle) (hb1 : b.rest_cals = rest) (hb2 : b.work_cals = work)
    (hb3 : b.step_cals = step) (hb4 : b.active_cals = active)
    (hb5 : b.total_cals = total) : calsOK b = true := by
  unfold calsOK
  rw [hb5, hb1, hb2, hb3, hb4, List.all_eq_true]
  intro p hp
  have hkey : p.1 ∈ total.map Prod.fst := List.mem_map_of_mem Prod.fst hp
  have hkey1 : p.1 ∈ rest.map Prod.fst := by rw [hkr]; exact hkey
  have hkey2 : p.1 ∈ work.map Prod.fst := by rw [hkw]; exact hkey
  have hkey3 : p.1 ∈ step.map Prod.fst := by rw [hks]; exact hkey
  have hkey4 : p.1 ∈ active.map Prod.fst := by rw [hka]; exact hkey
  obtain ⟨rr, hrR⟩ := lookup_of_mem_keys hkey1
  obtain ⟨ww, hwW⟩ := lookup_of_mem_keys hkey2
  obtain ⟨sc, hsS⟩ := lookup_of_mem_keys hkey3
  obtain ⟨aa, haA⟩ := lookup_of_mem_keys hkey4
  have h1 := hlookup p.1
  rw [lookup_eq_of_mem_of_nodup hnd hp, hrR, hwW, hsS, haA] at h1
  have h2 : p.2 = rr + ww + sc + aa := Option.some.inj h1
  rw [hrR, hwW, hsS, haA]
  exact decide_eq_true ⟨h2, hnnr _ (mem_of_lookup_eq_some hrR),
    hnnw _ (mem_of_lookup_eq_some hwW), hnns _ (mem_of_lookup_eq_some hsS),
    hnna _ (mem_of_lookup_eq_some haA)⟩

theorem stepsEntryOK_of (bpmD : List (TKey × ℚ)) (distD : List (String × ℚ))
    (p : String × ℚ) {b dv : ℚ}
    (hb : bpmD.lookup (p.1, TZ_OFFSET) = some b)
    (hd : distD.lookup p.1 = some dv)
    (hbr : stepsBranchOK p.1 b p.2)
    (h1 : (7/10) * p.2 ≤ dv) (h2 : dv ≤ (8/10) * p.2) :
    stepsEntryOK bpmD distD p = true := by
  unfold stepsEntryOK
  rw [hb, hd]
  show ((if 23 ≤ hourOfKey (p.1, TZ_OFFSET) ∨ hourOfKey (p.1, TZ_OFFSET) < 6
      then decide (p.2 = 0 ∨ p.2 = 1 ∨ p.2 = 2)
      else if b < 60 then decide (0 ≤ p.2 ∧ p.2 ≤ 20)
      else if b < 80 then decide (20 ≤ p.2 ∧ p.2 ≤ 40)
      else decide (40 ≤ p.2 ∧ p.2 ≤ 120)) &&
    decide ((7/10) * p.2 ≤ dv ∧ dv ≤ (8/10) * p.2)) = true
  rw [Bool.and_eq_true]
  constructor
  · unfold stepsBranchOK at hbr
    split_ifs at hbr ⊢ with hc1 hc2 hc3
    · exact decide_eq_true hbr
    · exact decide_eq_true hbr
    · exact decide_eq_true hbr
    · exact decide_eq_true hbr
  · exact decide_eq_true ⟨h1, h2⟩

theorem stepsOK_of_spec {bpmD : List (TKey × ℚ)}
    {stepsD distD : List (String × ℚ)}
    (hfor : List.Forall₂ (stepsPairOK bpmD) stepsD distD)
    (hbnd : (bpmD.map Prod.fst).Nodup)
    (hknd : (stepsD.map Prod.fst).Nodup)
    (hkeq : distD.map Prod.fst = stepsD.map Prod.fst)
    (b : Bundle) (h1 : b.bpm = bpmD) (h2 : b.steps = stepsD)
    (h3 : b.distance = distD) : stepsOK b = true := by
  unfold stepsOK
  rw [h2, h1, h3, List.all_eq_true]
  intro p hp
  obtain ⟨q, hq, hrel⟩ := forall₂_mem_left hfor hp
  obtain ⟨hq1, bv, hbmem, hbr, hu1, hu2⟩ := hrel
  have hqmem : (p.1, q.2) ∈ distD := by
    rw [← hq1]
    exact hq
  have hndd : (distD.map Prod.fst).Nodup := by
    rw [hkeq]
    exact hknd
  exact stepsEntryOK_of bpmD distD p
    (lookup_eq_of_mem_of_nodup hbnd hbmem)
    (lookup_eq_of_mem_of_nodup hndd hqmem) hbr hu1 hu2

theorem bioKeys_2022 :
    bioKeys ⟨2022, 1, 1⟩ ⟨2022, 1, 1⟩ =
      tickSecs.map (fun t => (fmtKey ⟨2022, 1, 1⟩ t, TZ_OFFSET)) := by
  unfold bioKeys
  rw [dayListFrom_2022, List.flatMap_cons, List.flatMap_nil, List.append_nil]

theorem bioKeys_2022_length :
    (bioKeys ⟨2022, 1, 1⟩ ⟨2022, 1, 1⟩).length = 8640 := by
  rw [bioKeys_2022, List.length_map, tickSecs_length]

theorem bioKeys_2022_head :
    (bioKeys ⟨2022, 1, 1⟩ ⟨2022, 1, 1⟩).head? =
      some ("2022-01-01 00:00:00", (-420 : ℤ)) := by
  rw [bioKeys_2022]
  unfold tickSecs
  rw [show (8640 : ℕ) = 8639 + 1 from rfl, List.range'_succ, List.map_cons,
    List.head?_cons]
  rfl

theorem bioKeys_2022_last :
    (bioKeys ⟨2022, 1, 1⟩ ⟨2022, 1, 1⟩).getLast? =
      some ("2022-01-01 23:59:50", (-420 : ℤ)) := by
  rw [bioKeys_2022]
  unfold tickSecs
  rw [show (8640 : ℕ) = 8639 + 1 from rfl, List.range'_concat, List.map_append]
  rw [show List.map (fun t => (fmtKey ⟨2022, 1, 1⟩ t, TZ_OFFSET))
      [0 + 10 * 8639] = [("2022-01-01 23:59:50", (-420 : ℤ))] from rfl]
  rw [List.getLast?_concat]

theorem WFDate_2022 : WFDate ⟨2022, 1, 1⟩ :=
  ⟨by decide, by decide, by decide, by decide, by decide⟩

/-! ### The claims -/

/-- Claim C3: every value stored in the brpm series lies in `[12, 20]` and
every value stored in the spo2 series lies in `[95, 100]`, both for the
series returned by `synthetic_biometrics` directly and for the ones inside
every bundle `create_syn_data` returns. -/
theorem c3_clamp_ranges :
    (∀ (E : Env) (d1 d2 : Date) (st : St),
      bioRangesOK (synthetic_biometrics E d1 d2 st).1 = true) ∧
    (∀ (E : Env) (s1 s2 : String) (st : St),
      (create_syn_data E s1 s2 st).toOption.all
        (fun p => bioRangesOK ⟨p.1.bpm, p.1.brpm, p.1.hrv, p.1.spo2⟩) =
        true) := by
  refine ⟨bioRangesOK_spec, ?_⟩
  intro E s1 s2 st
  cases hp1 : strptime s1 with
  | none =>
    unfold create_syn_data
    rw [hp1]
    rfl
  | some d1 =>
    cases hp2 : strptime s2 with
    | none =>
      unfold create_syn_data
      rw [hp1, hp2]
      rfl
    | some d2 =>
      rw [create_syn_data_eq E hp1 hp2 st]
      exact bioRangesOK_spec E d1 d2 st

/-- Claim C7: the returned sleep-detail record satisfies
`light_sleep + deep_sleep + rem_sleep = 8` exactly, because `rem_sleep` is
constructed as `8 - (light_sleep + deep_sleep)`; this holds for
`synthetic_sleep_detail` at every state and for the record inside every
bundle `create_syn_data` returns. -/
theorem c7_sleep_detail_sum :
    (∀ (E : Env) (d1 d2 : Date) (st : St),
      (synthetic_sleep_detail E d1 d2 st).1.light_sleep +
        (synthetic_sleep_detail E d1 d2 st).1.deep_sleep +
        (synthetic_sleep_detail E d1 d2 st).1.rem_sleep = 8) ∧
    (∀ (E : Env) (s1 s2 : String) (st : St),
      (create_syn_data E s1 s2 st).toOption.all
        (fun p => decide (p.1.sleep_detail.light_sleep +
          p.1.sleep_detail.deep_sleep + p.1.sleep_detail.rem_sleep = 8)) =
        true) := by
  refine ⟨fun E d1 d2 st => (synthetic_sleep_detail_spec E d1 d2 st).2.1, ?_⟩
  intro E s1 s2 st
  cases hp1 : strptime s1 with
  | none =>
    unfold create_syn_data
    rw [hp1]
    rfl
  | some d1 =>
    cases hp2 : strptime s2 with
    | none =>
      unfold create_syn_data
      rw [hp1, hp2]
      rfl
    | some d2 =>
      rw [create_syn_data_eq E hp1 hp2 st]
      exact decide_eq_true ((synthetic_sleep_detail_spec E d1 d2 _).2.1)

/-- Claim C9: the four series returned by `synthetic_biometrics` carry
exactly the same keys, in the same order: all four key lists equal
`bioKeys d1 d2`, the 10-second tick keys of the range. -/
theorem c9_shared_keys (E : Env) {d1 d2 : Date} (hw : WFDate d1)
    (hy : d2.y ≤ 9999) (st : St) :
    (synthetic_biometrics E d1 d2 st).1.bpm.map Prod.fst = bioKeys d1 d2 ∧
      (synthetic_biometrics E d1 d2 st).1.brpm.map Prod.fst =
        (synthetic_biometrics E d1 d2 st).1.bpm.map Prod.fst ∧
      (synthetic_biometrics E d1 d2 st).1.hrv.map Prod.fst =
        (synthetic_biometrics E d1 d2 st).1.bpm.map Prod.fst ∧
      (synthetic_biometrics E d1 d2 st).1.spo2.map Prod.fst =
        (synthetic_biometrics E d1 d2 st).1.bpm.map Prod.fst := by
  obtain ⟨h1, h2, h3, h4, -⟩ := synthetic_biometrics_spec E hw hy st
  exact ⟨h1, h2.trans h1.symm, h3.trans h1.symm, h4.trans h1.symm⟩

/-- Witness for claim C9 at the concrete one-day range. -/
theorem c9_witness :
    (synthetic_biometrics E0 ⟨2022, 1, 1⟩ ⟨2022, 1, 1⟩ ⟨0, 0⟩).1.bpm.map
        Prod.fst = bioKeys ⟨2022, 1, 1⟩ ⟨2022, 1, 1⟩ ∧
      (synthetic_biometrics E0 ⟨2022, 1, 1⟩ ⟨2022, 1, 1⟩ ⟨0, 0⟩).1.brpm.map
          Prod.fst =
        (synthetic_biometrics E0 ⟨2022, 1, 1⟩ ⟨2022, 1, 1⟩ ⟨0, 0⟩).1.bpm.map
          Prod.fst ∧
      (synthetic_biometrics E0 ⟨2022, 1, 1⟩ ⟨2022, 1, 1⟩ ⟨0, 0⟩).1.hrv.map
          Prod.fst =
        (synthetic_biometrics E0 ⟨2022, 1, 1⟩ ⟨2022, 1, 1⟩ ⟨0, 0⟩).1.bpm.map
          Prod.fst ∧
      (synthetic_biometrics E0 ⟨2022, 1, 1⟩ ⟨2022, 1, 1⟩ ⟨0, 0⟩).1.spo2.map
          Prod.fst =
        (synthetic_biometrics E0 ⟨2022, 1, 1⟩ ⟨2022, 1, 1⟩ ⟨0, 0⟩).1.bpm.map
          Prod.fst :=
  c9_shared_keys E0 WFDate_2022 (by decide) ⟨0, 0⟩

/-- Claim C4 (code bug): the code assigns a brpm value at EVERY 10-second
tick, not once per minute: over the one-day range 2022-01-01 the brpm dict
has 8640 entries, of which only 1440 are minute-boundary keys. -/
theorem c4_brpm_every_tick :
    (synthetic_biometrics E0 ⟨2022, 1, 1⟩ ⟨2022, 1, 1⟩
        ⟨0, 0⟩).1.brpm.length = 8640 ∧
    ((synthetic_biometrics E0 ⟨2022, 1, 1⟩ ⟨2022, 1, 1⟩
        ⟨0, 0⟩).1.brpm.map Prod.fst).countP
      (fun k => pyEndswith k.1 "00") = 1440 := by
  obtain ⟨-, h2, -, -, -⟩ := @synthetic_biometrics_spec E0 ⟨2022, 1, 1⟩
    ⟨2022, 1, 1⟩ WFDate_2022 (by decide) (⟨0, 0⟩ : St)
  constructor
  · have h3 := congrArg List.length h2
    rw [List.length_map] at h3
    rw [h3, bioKeys_2022_length]
  · rw [h2, countP_endswith_bioKeys, dayListFrom_2022]
    rfl

/-- Claim C2: for every environment honouring the random-module contract
and every invocation of `create_syn_data`, each `total_cals` entry equals
exactly the sum of the `rest_cals`, `work_cals`, `step_cals` and
`active_cals` entries at the same date key, and all four components are
non-negative. -/
theorem c2_calories_sum (E : Env) (hE : Bounded E) :
    ∀ (s1 s2 : String) (st : St),
      (create_syn_data E s1 s2 st).toOption.all (fun p => calsOK p.1) =
        true := by
  intro s1 s2 st
  cases hp1 : strptime s1 with
  | none =>
    unfold create_syn_data
    rw [hp1]
    rfl
  | some d1 =>
    cases hp2 : strptime s2 with
    | none =>
      unfold create_syn_data
      rw [hp1, hp2]
      rfl
    | some d2 =>
      rw [create_syn_data_eq E hp1 hp2 st]
      have hw1 := (strptime_WF hp1).1
      have hy2 := (strptime_WF hp2).2
      obtain ⟨hb1, -, -, -, -⟩ := synthetic_biometrics_spec E hw1 hy2 st
      obtain ⟨hs1, -, -, -, -⟩ := synthetic_steps_spec E hE hw1 hy2
        (synthetic_biometrics E d1 d2 st).1.bpm hb1
        (synthetic_biometrics E d1 d2 st).2
      have hnn : ∀ p ∈ (synthetic_steps_distance_per_minute E
          (synthetic_biometrics E d1 d2 st).1.bpm
          (synthetic_biometrics E d1 d2 st).2).1.1, 0 ≤ p.2 := by
        intro p hp
        obtain ⟨q, hq, hrel⟩ := forall₂_mem_left hs1 hp
        obtain ⟨-, bv, -, hbr, -, -⟩ := hrel
        exact stepsBranchOK_nonneg hbr
      obtain ⟨hc1, hc2, hc3, hc4, -⟩ := synthetic_daily_calories_spec E hE
        hw1 hy2 (synthetic_biometrics E d1 d2 st).1.bpm hb1
        (synthetic_steps_distance_per_minute E
          (synthetic_biometrics E d1 d2 st).1.bpm
          (synthetic_biometrics E d1 d2 st).2).1.1 hnn
        (synthetic_steps_distance_per_minute E
          (synthetic_biometrics E d1 d2 st).1.bpm
          (synthetic_biometrics E d1 d2 st).2).2
      have hnd : ((synthetic_daily_calories E
          (synthetic_biometrics E d1 d2 st).1.bpm
          (synthetic_steps_distance_per_minute E
            (synthetic_biometrics E d1 d2 st).1.bpm
            (synthetic_biometrics E d1 d2 st).2).1.1
          (synthetic_steps_distance_per_minute E
            (synthetic_biometrics E d1 d2 st).1.bpm
            (synthetic_biometrics E d1 d2 st).2).2).1.total_cals.map
          Prod.fst).Nodup := by
        rw [hc3]
        exact fmtDate_nodup_dayListFrom hw1 hy2
      exact calsOK_of_spec hc1 hc2.1 hc2.2.1 hc2.2.2.1 hc2.2.2.2 hnd
        (hc4.1.trans hc3.symm) (hc4.2.1.trans hc3.symm)
        (hc4.2.2.1.trans hc3.symm) (hc4.2.2.2.trans hc3.symm)
        _ rfl rfl rfl rfl rfl

/-- Witness for claim C2 at a concrete environment, range and stream
position. -/
theorem c2_witness :
    (create_syn_data E0 "2022-01-01" "2022-01-01" ⟨0, 0⟩).toOption.all
      (fun p => calsOK p.1) = true :=
  c2_calories_sum E0 bounded_E0 "2022-01-01" "2022-01-01" ⟨0, 0⟩

/-- Claim C8: every minute-boundary steps entry is drawn from `{0, 1, 2}`
in the nocturnal window, from `[0, 20]` below heart rate 60, from
`[20, 40]` below 80 and from `[40, 120]` otherwise, and the concurrent
distance entry is that step count times a factor in `[0.7, 0.8]`. -/
theorem c8_steps_profile (E : Env) (hE : Bounded E) :
    ∀ (s1 s2 : String) (st : St),
      (create_syn_data E s1 s2 st).toOption.all (fun p => stepsOK p.1) =
        true := by
  intro s1 s2 st
  cases hp1 : strptime s1 with
  | none =>
    unfold create_syn_data
    rw [hp1]
    rfl
  | some d1 =>
    cases hp2 : strptime s2 with
    | none =>
      unfold create_syn_data
      rw [hp1, hp2]
      rfl
    | some d2 =>
      rw [create_syn_data_eq E hp1 hp2 st]
      have hw1 := (strptime_WF hp1).1
      have hy2 := (strptime_WF hp2).2
      obtain ⟨hb1, -, -, -, -⟩ := synthetic_biometrics_spec E hw1 hy2 st
      obtain ⟨hs1, hs2, -, -, hs5⟩ := synthetic_steps_spec E hE hw1 hy2
        (synthetic_biometrics E d1 d2 st).1.bpm hb1
        (synthetic_biometrics E d1 d2 st).2
      have hbnd : (((synthetic_biometrics E d1 d2 st).1.bpm).map
          Prod.fst).Nodup := by
        rw [hb1]
        exact bioKeys_nodup hw1 hy2
      exact stepsOK_of_spec hs1 hbnd hs5 hs2 _ rfl rfl rfl

/-- Witness for claim C8 at a concrete environment, range and stream
position. -/
theorem c8_witness :
    (create_syn_data E0 "2022-01-01" "2022-01-01" ⟨0, 0⟩).toOption.all
      (fun p => stepsOK p.1) = true :=
  c8_steps_profile E0 bounded_E0 "2022-01-01" "2022-01-01" ⟨0, 0⟩

/-- Claim C5 (corrected): `create_syn_data` raises `ValueError` when
either date string fails to parse, but a reversed range
(`end_date < start_date`) is NOT an error: the loops simply never run and
the call returns a bundle whose series are all empty. -/
theorem c5_range_errors :
    (∀ (E : Env) (s1 s2 : String) (st : St), strptime s1 = none →
      create_syn_data E s1 s2 st = .error "ValueError") ∧
    (∀ (E : Env) (s1 s2 : String) (d1 : Date) (st : St),
      strptime s1 = some d1 → strptime s2 = none →
      create_syn_data E s1 s2 st = .error "ValueError") ∧
    (∀ (E : Env) (s1 s2 : String) (d1 d2 : Date) (st : St),
      strptime s1 = some d1 → strptime s2 = some d2 →
      dateLe d1 d2 = false →
      ∃ b st2, create_syn_data E s1 s2 st = .ok (b, st2) ∧
        b.bpm = [] ∧ b.brpm = [] ∧ b.hrv = [] ∧ b.spo2 = [] ∧
        b.steps = [] ∧ b.distance = [] ∧ b.rest_cals = [] ∧
        b.work_cals = [] ∧ b.active_cals = [] ∧ b.step_cals = [] ∧
        b.total_cals = [] ∧ b.sleep_session = []) := by
  refine ⟨?_, ?_, ?_⟩
  · intro E s1 s2 st h
    unfold create_syn_data
    rw [h]
  · intro E s1 s2 d1 st h1 h2
    unfold create_syn_data
    rw [h1, h2]
  · intro E s1 s2 d1 d2 st h1 h2 hle
    rw [create_syn_data_eq E h1 h2 st, synthetic_biometrics_empty E hle st]
    exact ⟨_, _, rfl, rfl, rfl, rfl, rfl, rfl, rfl, rfl, rfl, rfl, rfl,
      rfl, rfl⟩

/-- Counterexample for claim C5: the reversed range 2022-01-02 .. 2022-01-01
does not fail; `create_syn_data` returns a bundle. -/
theorem c5_counterexample :
    ∃ v, create_syn_data E0 "2022-01-02" "2022-01-01" ⟨0, 0⟩ =
      Except.ok v :=
  ⟨_, create_syn_data_eq E0 strptime_20220102 strptime_20220101 ⟨0, 0⟩⟩

/-- Claim C6: on successful parses the bpm, hrv and spo2 series are keyed
by exactly the 10-second ticks of every day of the range, in order, the
five calorie aggregates are keyed by exactly the days of the range, and
the day list runs from the start date to the end date inclusive; for the
one-day range 2022-01-01 the bpm series has 8640 entries with first key
`("2022-01-01 00:00:00", -420)` and last key `("2022-01-01 23:59:50",
-420)`, and each calorie aggregate exactly the single key "2022-01-01". -/
theorem c6_boundary_coverage :
    (∀ (E : Env), Bounded E → ∀ (s1 s2 : String) (d1 d2 : Date) (st : St),
      strptime s1 = some d1 → strptime s2 = some d2 →
      ∃ b st2, create_syn_data E s1 s2 st = .ok (b, st2) ∧
        b.bpm.map Prod.fst = bioKeys d1 d2 ∧
        b.brpm.map Prod.fst = bioKeys d1 d2 ∧
        b.hrv.map Prod.fst = bioKeys d1 d2 ∧
        b.spo2.map Prod.fst = bioKeys d1 d2 ∧
        b.rest_cals.map Prod.fst = (dayListFrom d1 d2).map fmtDate ∧
        b.work_cals.map Prod.fst = (dayListFrom d1 d2).map fmtDate ∧
        b.active_cals.map Prod.fst = (dayListFrom d1 d2).map fmtDate ∧
        b.step_cals.map Prod.fst = (dayListFrom d1 d2).map fmtDate ∧
        b.total_cals.map Prod.fst = (dayListFrom d1 d2).map fmtDate ∧
        (dateLe d1 d2 = true →
          (dayListFrom d1 d2).head? = some d1 ∧
          (dayListFrom d1 d2).getLast? = some d2)) ∧
    (∀ (E : Env), Bounded E → ∀ (st : St),
      ∃ b st2,
        create_syn_data E "2022-01-01" "2022-01-01" st = .ok (b, st2) ∧
        b.bpm.length = 8640 ∧
        (b.bpm.map Prod.fst).head? = some ("2022-01-01 00:00:00", -420) ∧
        (b.bpm.map Prod.fst).getLast? =
          some ("2022-01-01 23:59:50", -420) ∧
        b.rest_cals.map Prod.fst = ["2022-01-01"] ∧
        b.work_cals.map Prod.fst = ["2022-01-01"] ∧
        b.active_cals.map Prod.fst = ["2022-01-01"] ∧
        b.step_cals.map Prod.fst = ["2022-01-01"] ∧
        b.total_cals.map Prod.fst = ["2022-01-01"]) := by
  have main : ∀ (E : Env), Bounded E →
      ∀ (s1 s2 : String) (d1 d2 : Date) (st : St),
      strptime s1 = some d1 → strptime s2 = some d2 →
      ∃ b st2, create_syn_data E s1 s2 st = .ok (b, st2) ∧
        b.bpm.map Prod.fst = bioKeys d1 d2 ∧
        b.brpm.map Prod.fst = bioKeys d1 d2 ∧
        b.hrv.map Prod.fst = bioKeys d1 d2 ∧
        b.spo2.map Prod.fst = bioKeys d1 d2 ∧
        b.rest_cals.map Prod.fst = (dayListFrom d1 d2).map fmtDate ∧
        b.work_cals.map Prod.fst = (dayListFrom d1 d2).map fmtDate ∧
        b.active_cals.map Prod.fst = (dayListFrom d1 d2).map fmtDate ∧
        b.step_cals.map Prod.fst = (dayListFrom d1 d2).map fmtDate ∧
        b.total_cals.map Prod.fst = (dayListFrom d1 d2).map fmtDate ∧
        (dateLe d1 d2 = true →
          (dayListFrom d1 d2).head? = some d1 ∧
          (dayListFrom d1 d2).getLast? = some d2) := by
    intro E hE s1 s2 d1 d2 st hp1 hp2
    have hw1 := (strptime_WF hp1).1
    have hw2 := (strptime_WF hp2).1
    have hy2 := (strptime_WF hp2).2
    obtain ⟨hb1, hb2, hb3, hb4, -⟩ := synthetic_biometrics_spec E hw1 hy2 st
    obtain ⟨hs1, -, -, -, -⟩ := synthetic_steps_spec E hE hw1 hy2
      (synthetic_biometrics E d1 d2 st).1.bpm hb1
      (synthetic_biometrics E d1 d2 st).2
    have hnn : ∀ p ∈ (synthetic_steps_distance_per_minute E
        (synthetic_biometrics E d1 d2 st).1.bpm
        (synthetic_biometrics E d1 d2 st).2).1.1, 0 ≤ p.2 := by
      intro p hp
      obtain ⟨q, hq, hrel⟩ := forall₂_mem_left hs1 hp
      obtain ⟨-, bv, -, hbr, -, -⟩ := hrel
      exact stepsBranchOK_nonneg hbr
    obtain ⟨-, -, hc3, hc4, -⟩ := synthetic_daily_calories_spec E hE
      hw1 hy2 (synthetic_biometrics E d1 d2 st).1.bpm hb1
      (synthetic_steps_distance_per_minute E
        (synthetic_biometrics E d1 d2 st).1.bpm
        (synthetic_biometrics E d1 d2 st).2).1.1 hnn
      (synthetic_steps_distance_per_minute E
        (synthetic_biometrics E d1 d2 st).1.bpm
        (synthetic_biometrics E d1 d2 st).2).2
    refine ⟨_, _, create_syn_data_eq E hp1 hp2 st, hb1, hb2, hb3, hb4,
      hc4.1, hc4.2.1, hc4.2.2.2, hc4.2.2.1, hc3, ?_⟩
    intro hle
    exact ⟨dayListFrom_head hle, dayListFrom_getLast hw1 hw2 hle⟩
  refine ⟨main, ?_⟩
  intro E hE st
  obtain ⟨b, st2, heq, h1, h2, h3, h4, h5, h6, h7, h8, h9, -⟩ :=
    main E hE "2022-01-01" "2022-01-01" ⟨2022, 1, 1⟩ ⟨2022, 1, 1⟩ st
      strptime_20220101 strptime_20220101
  refine ⟨b, st2, heq, ?_, ?_, ?_, ?_, ?_, ?_, ?_, ?_⟩
  · have h10 := congrArg List.length h1
    rw [List.length_map] at h10
    rw [h10, bioKeys_2022_length]
  · rw [h1, bioKeys_2022_head]
  · rw [h1, bioKeys_2022_last]
  · rw [h5, dayListFrom_2022]
    rfl
  · rw [h6, dayListFrom_2022]
    rfl
  · rw [h7, dayListFrom_2022]
    rfl
  · rw [h8, dayListFrom_2022]
    rfl
  · rw [h9, dayListFrom_2022]
    rfl

/-- Claim C10: in `Fitbit_sense._filter_synthetic`, when the requested end
date equals the configured synthetic end date, `num_days_end` is `0`, the
slice upper bound `-num_days_end + 1` is `1`, and the returned "sleep"
list holds at most the first element of the pre-fetched list: it is empty
whenever `num_days_start ≥ 1` and `take 1` when `num_days_start = 0`. -/
theorem c10_end_slice {α : Type} (data : List (List (String × List α)))
    (ss ps se : String) {dss dps dse : Date}
    (h1 : strptime ss = some dss) (h2 : strptime ps = some dps)
    (h3 : strptime se = some dse) :
    daysFromCivil dse - daysFromCivil dse = 0 ∧
    filter_synthetic data "sleep" ss ps se se =
      some [[("sleep",
        pySlice (((data.headD []).lookup "sleep").getD [])
          (daysFromCivil dps - daysFromCivil dss) 1)]] ∧
    (pySlice (((data.headD []).lookup "sleep").getD [])
      (daysFromCivil dps - daysFromCivil dss) 1).length ≤ 1 ∧
    (1 ≤ daysFromCivil dps - daysFromCivil dss →
      pySlice (((data.headD []).lookup "sleep").getD [])
        (daysFromCivil dps - daysFromCivil dss) 1 = []) ∧
    (daysFromCivil dps - daysFromCivil dss = 0 →
      pySlice (((data.headD []).lookup "sleep").getD [])
        (daysFromCivil dps - daysFromCivil dss) 1 =
        (((data.headD []).lookup "sleep").getD []).take 1) := by
  obtain ⟨hl1, hl2, hl3⟩ := pySlice_upper_one
    (((data.headD []).lookup "sleep").getD [])
    (daysFromCivil dps - daysFromCivil dss)
  have hred : filter_synthetic data "sleep" ss ps se se =
      some [[("sleep",
        pySlice (((data.headD []).lookup "sleep").getD [])
          (daysFromCivil dps - daysFromCivil dss)
          (-(daysFromCivil dse - daysFromCivil dse) + 1))]] := by
    unfold filter_synthetic
    rw [h1, h2, h3]
    rfl
  refine ⟨sub_self _, ?_, hl1, hl2, hl3⟩
  rw [hred, sub_self, neg_zero, zero_add]

/-- Witness for claim C10: a concrete three-element "sleep" payload with
the requested range starting one day into the synthetic range and ending
exactly at the synthetic end date. -/
theorem c10_witness :
    daysFromCivil ⟨2023, 1, 1⟩ - daysFromCivil ⟨2023, 1, 1⟩ = 0 ∧
    filter_synthetic [[("sleep", [(1 : ℚ), 2, 3])]] "sleep" "2022-06-30"
        "2022-07-01" "2023-01-01" "2023-01-01" =
      some [[("sleep",
        pySlice ((([[("sleep", [(1 : ℚ), 2, 3])]].headD []).lookup
            "sleep").getD [])
          (daysFromCivil ⟨2022, 7, 1⟩ - daysFromCivil ⟨2022, 6, 30⟩)
          1)]] ∧
    (pySlice ((([[("sleep", [(1 : ℚ), 2, 3])]].headD []).lookup
        "sleep").getD [])
      (daysFromCivil ⟨2022, 7, 1⟩ - daysFromCivil ⟨2022, 6, 30⟩)
      1).length ≤ 1 ∧
    (1 ≤ daysFromCivil ⟨2022, 7, 1⟩ - daysFromCivil ⟨2022, 6, 30⟩ →
      pySlice ((([[("sleep", [(1 : ℚ), 2, 3])]].headD []).lookup
          "sleep").getD [])
        (daysFromCivil ⟨2022, 7, 1⟩ - daysFromCivil ⟨2022, 6, 30⟩) 1 =
        []) ∧
    (daysFromCivil ⟨2022, 7, 1⟩ - daysFromCivil ⟨2022, 6, 30⟩ = 0 →
      pySlice ((([[("sleep", [(1 : ℚ), 2, 3])]].headD []).lookup
          "sleep").getD [])
        (daysFromCivil ⟨2022, 7, 1⟩ - daysFromCivil ⟨2022, 6, 30⟩) 1 =
        (((([[("sleep", [(1 : ℚ), 2, 3])]].headD []).lookup
          "sleep").getD []).take 1)) :=
  c10_end_slice [[("sleep", [(1 : ℚ), 2, 3])]] "2022-06-30" "2022-07-01"
    "2023-01-01" rfl rfl rfl

/-- Claim C1 (corrected): `create_syn_data` is deterministic relative to
the position of the shared random streams: two invocations over the same
range from the same stream position return identical results, and each
successful invocation leaves the streams advanced by `4·8640·days` numpy
draws and `2883·days + 11` `random`-module draws, so a back-to-back second
invocation does NOT start from the same position (see the
counterexample). -/
theorem c1_determinism (E : Env) (hE : Bounded E) {s1 s2 : String}
    {d1 d2 : Date} (hp1 : strptime s1 = some d1)
    (hp2 : strptime s2 = some d2) (st st2 : St) (hst : st = st2) :
    create_syn_data E s1 s2 st = create_syn_data E s1 s2 st2 ∧
    ∃ b, create_syn_data E s1 s2 st = .ok (b,
      ⟨st.np + 4 * (8640 * (dayListFrom d1 d2).length),
       st.py + 2883 * (dayListFrom d1 d2).length + 11⟩) := by
  subst hst
  refine ⟨rfl, ?_⟩
  obtain ⟨b, hb, -⟩ := create_syn_data_st E hE hp1 hp2 st
  refine ⟨b, ?_⟩
  rw [hb]
  have h2 : st.py + 2 * (1440 * (dayListFrom d1 d2).length) +
      3 * (dayListFrom d1 d2).length + 7 + 4 =
      st.py + 2883 * (dayListFrom d1 d2).length + 11 := by
    ring
  rw [h2]

/-- Witness for claim C1's corrected statement at a concrete environment,
range and stream position. -/
theorem c1_witness :
    create_syn_data E0 "2022-01-01" "2022-01-01" ⟨0, 0⟩ =
      create_syn_data E0 "2022-01-01" "2022-01-01" ⟨0, 0⟩ ∧
    ∃ b, create_syn_data E0 "2022-01-01" "2022-01-01" (⟨0, 0⟩ : St) =
      .ok (b,
        ⟨0 + 4 * (8640 * (dayListFrom ⟨2022, 1, 1⟩ ⟨2022, 1, 1⟩).length),
         0 + 2883 * (dayListFrom ⟨2022, 1, 1⟩ ⟨2022, 1, 1⟩).length + 11⟩) :=
  c1_determinism E0 bounded_E0 strptime_20220101 strptime_20220101
    ⟨0, 0⟩ ⟨0, 0⟩ rfl

/-- Counterexample for claim C1 as literally stated: with the global
random streams never reseeded between calls (as in the source, where the
module-level `random`/`np.random` state simply continues), two
back-to-back invocations over the same one-day range return different
bundles: the second run's `times_awoken` draw reads stream position 5787
instead of 2893. -/
theorem c1_counterexample :
    ∃ (b1 b2 : Bundle) (st1 st2 : St),
      create_syn_data E1 "2022-01-01" "2022-01-01" ⟨0, 0⟩ = .ok (b1, st1) ∧
      create_syn_data E1 "2022-01-01" "2022-01-01" st1 = .ok (b2, st2) ∧
      b1 ≠ b2 := by
  have hD : (dayListFrom ⟨2022, 1, 1⟩ ⟨2022, 1, 1⟩).length = 1 := by
    rw [dayListFrom_2022]
    rfl
  obtain ⟨b1, h1, ht1⟩ := create_syn_data_st E1 bounded_E1
    strptime_20220101 strptime_20220101 ⟨0, 0⟩
  rw [hD] at h1 ht1
  norm_num at h1 ht1
  have hr1 : E1.rand 2893 = 0 := by norm_num [E1]
  rw [hr1] at ht1
  norm_num at ht1
  obtain ⟨b2, h2, ht2⟩ := create_syn_data_st E1 bounded_E1
    strptime_20220101 strptime_20220101 ⟨34560, 2894⟩
  rw [hD] at h2 ht2
  norm_num at h2 ht2
  have hr2 : E1.rand 5787 = 1 / 2 := by norm_num [E1]
  rw [hr2] at ht2
  have hfl : (⌊(1 / 2 : ℚ) * 5⌋ : ℤ) = 2 := by
    rw [show (1 / 2 : ℚ) * 5 = 5 / 2 by ring, Int.floor_eq_iff]
    constructor <;> norm_num
  rw [hfl] at ht2
  norm_num at ht2
  refine ⟨b1, b2, ⟨34560, 2894⟩, _, h1, h2, ?_⟩
  intro heq
  rw [heq] at ht1
  rw [ht1] at ht2
  norm_num at ht2

end Wearipedia
